import Mathlib

/-!
Verification development for the MCP order-assistant repository.

The Python source (`assistant.py`, backed by the MCP server in `app.py`) is
shallowly embedded below: JSON-like Python values become the inductive type
`Value`, Python exceptions become `Except Unit`/`Option` results, the mutable
session-memory dictionary becomes an explicit association list threaded
through a per-turn step function, and the network is an explicit oracle
argument of the dispatcher.
-/

namespace MCP

/-- JSON-like Python values as exchanged between the assistant and the MCP
endpoints.  `vNull` is Python `None`; `vObj` is a string-keyed dict rendered
as an association list (keys unique at all construction sites). -/
inductive Value where
  | vNull : Value
  | vBool : Bool → Value
  | vInt : Int → Value
  | vFloat : Rat → Value
  | vStr : String → Value
  | vList : List Value → Value
  | vObj : List (String × Value) → Value
deriving BEq, Repr

/-- A Python dict with string keys (an order record, a tool result, ...). -/
abbrev Obj := List (String × Value)

/-- Python truthiness (`bool(x)`). -/
def truthy : Value → Bool
  | .vNull => false
  | .vBool b => b
  | .vInt n => n != 0
  | .vFloat q => q != 0
  | .vStr s => !s.isEmpty
  | .vList xs => !xs.isEmpty
  | .vObj kvs => !kvs.isEmpty

/-- First-key lookup in a dict (`order[k]` / `k in order` on dicts). -/
def objLookup : Obj → String → Option Value
  | [], _ => none
  | (k, v) :: rest, key => if k = key then some v else objLookup rest key

/-- Python `dict.get(k)`: missing keys give `None`. -/
def dictGet (kvs : Obj) (k : String) : Value :=
  (objLookup kvs k).getD .vNull

/-- Python `a or b or ...` over the listed operands: the first truthy
operand, else the last operand. -/
def orChain : List Value → Value
  | [] => .vNull
  | [v] => v
  | v :: rest => if truthy v then v else orChain rest

/-- Python `v or default` (`_get(...) or "(unknown)"` and friends). -/
def orV (v d : Value) : Value :=
  if truthy v then v else d

/-- `sub.isPrefixOf hay` without relying on library names. -/
def startsWithChars : List Char → List Char → Bool
  | [], _ => true
  | _ :: _, [] => false
  | a :: as, b :: bs => (a == b) && startsWithChars as bs

/-- `str.lower()` (basic-latin case mapping, applied character-wise). -/
def lowerStr (s : String) : String :=
  ⟨s.data.map Char.toLower⟩

/-- `str.upper()` (basic-latin case mapping, applied character-wise). -/
def upperStr (s : String) : String :=
  ⟨s.data.map Char.toUpper⟩

/-- The whitespace stripped by Python `str.strip()` / number conversion. -/
def isPySpace (c : Char) : Bool :=
  c == ' ' || c == '\t' || c == '\n' || c == '\r' || c == '\x0b' || c == '\x0c'

/-- `s.strip()` on a character list. -/
def pyStripChars (cs : List Char) : List Char :=
  ((cs.dropWhile isPySpace).reverse.dropWhile isPySpace).reverse

/-- `k.split(".")` as character chunks. -/
def splitDotAux : List Char → List Char → List (List Char)
  | [], acc => [acc.reverse]
  | '.' :: rest, acc => acc.reverse :: splitDotAux rest []
  | c :: rest, acc => splitDotAux rest (c :: acc)

/-- `k.split(".")` as strings. -/
def splitDots (k : String) : List String :=
  (splitDotAux k.data []).map (fun cs => ⟨cs⟩)

mutual

/-- Structural equality of values (Python `==` restricted to the shapes the
assistant compares: dict keys in the session memory). -/
def valEq : Value → Value → Bool
  | .vNull, .vNull => true
  | .vBool a, .vBool b => a == b
  | .vInt a, .vInt b => a == b
  | .vFloat a, .vFloat b => a == b
  | .vStr a, .vStr b => a == b
  | .vList a, .vList b => valEqList a b
  | .vObj a, .vObj b => valEqObj a b
  | _, _ => false

def valEqList : List Value → List Value → Bool
  | [], [] => true
  | a :: as, b :: bs => valEq a b && valEqList as bs
  | _, _ => false

def valEqObj : Obj → Obj → Bool
  | [], [] => true
  | (k, a) :: as, (k2, b) :: bs => (k == k2) && valEq a b && valEqObj as bs
  | _, _ => false

end


/-- Decimal digits of a natural number, most significant first. -/
def natDigitsAux : Nat → Nat → List Char
  | 0, _ => []
  | _ + 1, 0 => []
  | fuel + 1, n + 1 =>
      natDigitsAux fuel ((n + 1) / 10) ++ [Char.ofNat (48 + (n + 1) % 10)]

/-- Decimal rendering of a natural number. -/
def natToDigits (n : Nat) : String :=
  if n = 0 then "0" else ⟨natDigitsAux (n + 1) n⟩

/-- Fractional expansion of `num/den` (num < den), up to `fuel` digits;
`none` when the expansion does not terminate within the budget. -/
def fracDigitsAux : Nat → Nat → Nat → Option (List Char)
  | _, 0, _ => some []
  | 0, _ + 1, _ => none
  | fuel + 1, r + 1, den =>
      let r10 := (r + 1) * 10
      match fracDigitsAux fuel (r10 % den) den with
      | some rest => some (Char.ofNat (48 + r10 / den) :: rest)
      | none => none

/-- Python `str()` of a float for the exact rationals the embedding
manipulates: integral values render with a trailing `.0`, terminating
decimal expansions render exactly, anything else falls back to `num/den`
notation (never reached by the records in this development). -/
def ratRepr (q : Rat) : String :=
  let sign := if q < 0 then "-" else ""
  let n := q.num.natAbs
  let ip := n / q.den
  let rem := n % q.den
  if rem = 0 then sign ++ natToDigits ip ++ ".0"
  else
    match fracDigitsAux 30 rem q.den with
    | some ds => sign ++ natToDigits ip ++ "." ++ ⟨ds⟩
    | none => sign ++ natToDigits n ++ "/" ++ natToDigits q.den

mutual

/-- Python `repr()` (used by `str()` on containers). -/
def pyRepr : Value → String
  | .vNull => "None"
  | .vBool b => if b then "True" else "False"
  | .vInt n => if n < 0 then "-" ++ natToDigits n.natAbs else natToDigits n.natAbs
  | .vFloat q => ratRepr q
  | .vStr s => "\x27" ++ s ++ "\x27"
  | .vList xs => "[" ++ String.intercalate ", " (pyReprList xs) ++ "]"
  | .vObj kvs => "\x7b" ++ String.intercalate ", " (pyReprObj kvs) ++ "\x7d"

def pyReprList : List Value → List String
  | [] => []
  | v :: rest => pyRepr v :: pyReprList rest

def pyReprObj : Obj → List String
  | [] => []
  | (k, v) :: rest => ("\x27" ++ k ++ "\x27: " ++ pyRepr v) :: pyReprObj rest

end

/-- Python `str()` / f-string interpolation of a value. -/
def pyStr : Value → String
  | .vStr s => s
  | v => pyRepr v

/-- Character run split: longest leading run satisfying `p`, and the rest. -/
def takeRun (p : Char → Bool) : List Char → List Char × List Char
  | [] => ([], [])
  | c :: rest =>
      if p c then
        let r := takeRun p rest
        (c :: r.1, r.2)
      else ([], c :: rest)

/-- Numeric value of a list of decimal digit characters. -/
def digitsToNat (ds : List Char) : Nat :=
  ds.foldl (fun acc c => acc * 10 + (c.toNat - 48)) 0

/-- Python `float(s)` on a string: optional sign, decimal digits with an
optional point, optional exponent; whitespace is stripped by the caller. -/
def parseFloatChars (cs : List Char) : Option Rat :=
  let (sign, cs1) : Rat × List Char :=
    match cs with
    | '-' :: rest => (-1, rest)
    | '+' :: rest => (1, rest)
    | rest => (1, rest)
  let (ipart, cs2) := takeRun Char.isDigit cs1
  let (fpart, cs3) : List Char × List Char :=
    match cs2 with
    | '.' :: rest => takeRun Char.isDigit rest
    | rest => ([], rest)
  if ipart.isEmpty ∧ fpart.isEmpty then none
  else
    let mantissa : Rat :=
      (digitsToNat ipart : Rat) + (digitsToNat fpart : Rat) / ((10 : Rat) ^ fpart.length)
    match cs3 with
    | [] => some (sign * mantissa)
    | e :: rest =>
        if e = 'e' ∨ e = 'E' then
          let (esign, rest1) : Bool × List Char :=
            match rest with
            | '-' :: r => (true, r)
            | '+' :: r => (false, r)
            | r => (false, r)
          let (edigits, rest2) := takeRun Char.isDigit rest1
          if edigits.isEmpty ∨ ¬rest2.isEmpty then none
          else
            let ex := digitsToNat edigits
            some (sign * (if esign then mantissa / (10 : Rat) ^ ex else mantissa * (10 : Rat) ^ ex))
        else none

/-- Python `float(x)`: `None` models the raised `TypeError`/`ValueError`. -/
def pyFloat : Value → Option Rat
  | .vInt n => some (n : Rat)
  | .vFloat q => some q
  | .vBool b => some (if b then 1 else 0)
  | .vStr s => parseFloatChars (pyStripChars s.data)
  | _ => none

/-- Python `int(s)` on a string: optional sign, decimal digits only. -/
def parseIntChars (cs : List Char) : Option Int :=
  let (neg, cs1) : Bool × List Char :=
    match cs with
    | '-' :: rest => (true, rest)
    | '+' :: rest => (false, rest)
    | rest => (false, rest)
  let (ds, rest) := takeRun Char.isDigit cs1
  if ds.isEmpty ∨ ¬rest.isEmpty then none
  else some (if neg then -(digitsToNat ds : Int) else (digitsToNat ds : Int))

/-- Truncation of a rational toward zero (Python `int(float)`). -/
def ratTrunc (q : Rat) : Int :=
  if q < 0 then -(Rat.floor (-q)) else Rat.floor q

/-- Python `int(x)`: `None` models the raised `TypeError`/`ValueError`. -/
def pyInt : Value → Option Int
  | .vInt n => some n
  | .vFloat q => some (ratTrunc q)
  | .vBool b => some (if b then 1 else 0)
  | .vStr s => parseIntChars (pyStripChars s.data)
  | _ => none

/-- Comma-grouping of a reversed digit list (thousands separators). -/
def commaGroupRev : List Char → List Char
  | a :: b :: c :: d :: rest => a :: b :: c :: ',' :: commaGroupRev (d :: rest)
  | l => l

/-- Thousands-separated rendering of a natural number. -/
def groupDigits (n : Nat) : String :=
  ⟨(commaGroupRev (natToDigits n).data.reverse).reverse⟩

/-- Python `f"{v:,.2f}"`: two decimals, thousands separators. -/
def formatMoney (q : Rat) : String :=
  let cents : Int := round (q * 100)
  let sign := if cents < 0 then "-" else ""
  let a := cents.natAbs
  let fr := a % 100
  sign ++ groupDigits (a / 100) ++ "." ++ (if fr < 10 then "0" ++ natToDigits fr else natToDigits fr)

/-- `_fmt_currency` from `assistant.py`: `None` in, `None` out; numbers get
the currency format; anything non-convertible falls back to `str(value)`. -/
def fmtCurrency : Value → Option String
  | .vNull => none
  | v =>
      match pyFloat v with
      | some q => some ("$" ++ formatMoney q)
      | none => some (pyStr v)

/-- Gregorian leap-year rule. -/
def isLeap (y : Nat) : Bool := (y % 4 == 0 && y % 100 != 0) || y % 400 == 0

/-- Days in a month, as validated by `datetime.fromisoformat`. -/
def daysInMonth (y m : Nat) : Nat :=
  if m = 2 then (if isLeap y then 29 else 28)
  else if m = 4 ∨ m = 6 ∨ m = 9 ∨ m = 11 then 30 else 31

/-- Optional `±HH:MM[:SS]` timezone suffix of an ISO time. -/
def isoTZOk (cs : List Char) : Bool :=
  match cs with
  | [] => true
  | s :: h1 :: h2 :: ':' :: m1 :: m2 :: rest =>
      (s == '+' || s == '-') && [h1, h2, m1, m2].all Char.isDigit &&
      digitsToNat [h1, h2] < 24 && digitsToNat [m1, m2] < 60 &&
      (match rest with
       | [] => true
       | ':' :: s1 :: s2 :: [] => s1.isDigit && s2.isDigit && digitsToNat [s1, s2] < 60
       | _ => false)
  | _ => false

/-- `[.fff[fff]]` fractional-second suffix followed by a timezone suffix. -/
def isoFracOk (cs : List Char) : Bool :=
  match cs with
  | '.' :: a :: b :: c :: rest =>
      [a, b, c].all Char.isDigit &&
      (match rest with
       | d :: e :: f :: rest2 =>
           if [d, e, f].all Char.isDigit then isoTZOk rest2 else isoTZOk rest
       | _ => isoTZOk rest)
  | rest => isoTZOk rest

/-- `[:SS[.ffffff]]` suffix of an ISO time. -/
def isoSecOk (cs : List Char) : Bool :=
  match cs with
  | ':' :: s1 :: s2 :: rest =>
      s1.isDigit && s2.isDigit && digitsToNat [s1, s2] < 60 && isoFracOk rest
  | rest => isoTZOk rest

/-- `HH[:MM[:SS[.ffffff]]][tz]` time component of an ISO datetime string. -/
def isoTimeOk (cs : List Char) : Bool :=
  match cs with
  | h1 :: h2 :: rest =>
      h1.isDigit && h2.isDigit && digitsToNat [h1, h2] < 24 &&
      (match rest with
       | ':' :: m1 :: m2 :: rest2 =>
           m1.isDigit && m2.isDigit && digitsToNat [m1, m2] < 60 && isoSecOk rest2
       | rest2 => isoTZOk rest2)
  | _ => false

/-- `datetime.fromisoformat` (the pre-3.11 grammar the source relies on):
`YYYY-MM-DD`, optionally a one-character separator and a valid time; a
trailing `Z` is rejected, which is why the source strips it by hand.
Returns the calendar date. -/
def isoParse (cs : List Char) : Option (Nat × Nat × Nat) :=
  match cs with
  | y1 :: y2 :: y3 :: y4 :: '-' :: m1 :: m2 :: '-' :: d1 :: d2 :: rest =>
      if [y1, y2, y3, y4, m1, m2, d1, d2].all Char.isDigit then
        let y := digitsToNat [y1, y2, y3, y4]
        let m := digitsToNat [m1, m2]
        let d := digitsToNat [d1, d2]
        if (1 ≤ y && 1 ≤ m && m ≤ 12 && 1 ≤ d && d ≤ daysInMonth y m &&
            (match rest with
             | [] => true
             | _ :: time => isoTimeOk time) : Bool) then
          some (y, m, d)
        else none
      else none
  | _ => none

/-- `%b` month abbreviations. -/
def monthAbbr (m : Nat) : String :=
  ["Jan", "Feb", "Mar", "Apr", "May", "Jun",
   "Jul", "Aug", "Sep", "Oct", "Nov", "Dec"].getD (m - 1) "Jan"

/-- `dt.strftime("%b %d, %Y")`. -/
def strftimeOut (ymd : Nat × Nat × Nat) : String :=
  let d := ymd.2.2
  monthAbbr ymd.2.1 ++ " " ++ (if d < 10 then "0" ++ natToDigits d else natToDigits d) ++
    ", " ++ natToDigits ymd.1

/-- The `value = value[:-1]` rebinding applied when a date string ends in
`Z`. -/
def stripZ (s : String) : String :=
  match s.data.reverse with
  | 'Z' :: restRev => ⟨restRev.reverse⟩
  | _ => s

/-- `_fmt_date` from `assistant.py`.  Falsy input gives `None` (`vNull`);
a parseable ISO string gives the formatted date; an unparseable string is
retried with a trailing `Z` stripped and, failing that, returned verbatim
(after the strip); any other truthy value is returned unchanged, because
both parse attempts raise and both handlers swallow the exception. -/
def fmtDate (v : Value) : Value :=
  if ¬truthy v then .vNull
  else
    match v with
    | .vStr s =>
        match isoParse s.data with
        | some ymd => .vStr (strftimeOut ymd)
        | none =>
            match isoParse (stripZ s).data with
            | some ymd => .vStr (strftimeOut ymd)
            | none => .vStr (stripZ s)
    | other => other

/-- `_get` from `assistant.py`: try each key in order; a dotted key walks
nested dicts strictly (every hop must be a dict holding the segment) and a
failed walk falls through to the next key. -/
def digNested : Value → List String → Option Value
  | cur, [] => some cur
  | .vObj kvs, p :: ps =>
      match objLookup kvs p with
      | some v => digNested v ps
      | none => none
  | _, _ :: _ => none

/-- One `_get` key attempt on a record. -/
def getKey (order : Obj) (k : String) : Option Value :=
  if k.data.contains '.' then digNested (.vObj order) (splitDots k)
  else objLookup order k

/-- `_get(order, *keys)`.  Python returns `None` both when no key matched
and when the first matching key holds `None`, and a present key stops the
chain even when its value is falsy; `vNull` plays the role of that `None`. -/
def getFirst (order : Obj) : List String → Value
  | [] => .vNull
  | k :: ks =>
      if k.isEmpty then getFirst order ks
      else
        match getKey order k with
        | some v => v
        | none => getFirst order ks

/-- `sep.join(vs)`: every element must be a `str`, else `TypeError`. -/
def strListOf : List Value → Except Unit (List String)
  | [] => .ok []
  | .vStr s :: rest =>
      match strListOf rest with
      | .ok ss => .ok (s :: ss)
      | .error e => .error e
  | _ :: _ => .error ()

/-- `sep.join(vs)` on a list of values. -/
def pyJoin (sep : String) (vs : List Value) : Except Unit String :=
  match strListOf vs with
  | .ok ss => .ok (String.intercalate sep ss)
  | .error e => .error e

/-- One iteration of the loop in `format_items`: a non-dict item makes
`it.get` raise, and a quantity `int()` cannot convert raises in either
branch of the f-string. -/
def formatOneItem : Value → Except Unit String
  | .vObj kvs =>
      let name := orChain [dictGet kvs "name", dictGet kvs "title", dictGet kvs "sku", .vStr "Item"]
      let qty := orChain [dictGet kvs "qty", dictGet kvs "quantity", dictGet kvs "qty_ordered", .vInt 1]
      let price := orChain [dictGet kvs "price", dictGet kvs "unit_price", dictGet kvs "unitPrice", dictGet kvs "amount"]
      let priceS : Option String :=
        match price with
        | .vNull => none
        | p => fmtCurrency p
      match pyInt qty with
      | none => .error ()
      | some iq =>
          let hasPrice := match priceS with | some s => !s.isEmpty | none => false
          if hasPrice then
            .ok (pyStr name ++ " (" ++ toString iq ++ " x " ++ priceS.getD "" ++ ")")
          else
            .ok (pyStr name ++ " (" ++ toString iq ++ " x qty=" ++ pyStr qty ++ ")")
  | _ => .error ()

/-- The item parts accumulated by `format_items`. -/
def formatItemParts : List Value → Except Unit (List String)
  | [] => .ok []
  | it :: rest =>
      match formatOneItem it with
      | .error e => .error e
      | .ok p =>
          match formatItemParts rest with
          | .error e => .error e
          | .ok ps => .ok (p :: ps)

/-- `format_items` from `assistant.py`. -/
def format_items (items : List Value) : Except Unit String :=
  match formatItemParts items with
  | .error e => .error e
  | .ok parts => .ok (if parts.isEmpty then "(no items)" else String.intercalate ", " parts)

/-- The structured-address composition shared by `build_order_summary` and
`extract_field`: street parts joined by spaces, city+state joined by a
comma, all non-empty components joined by commas; `join` raises on
non-string components. -/
def composeAddr (kvs : Obj) : Except Unit String :=
  let addrParts := [dictGet kvs "line1", dictGet kvs "street", dictGet kvs "address1",
    dictGet kvs "street1"].filter truthy
  match strListOf addrParts with
  | .error e => .error e
  | .ok ss =>
      let j1 := String.intercalate " " ss
      let city := dictGet kvs "city"
      let state := dictGet kvs "state"
      match strListOf ([city, state].filter truthy) with
      | .error e => .error e
      | .ok cs =>
          let cityState := String.intercalate ", " cs
          let postal := orChain [dictGet kvs "postal_code", dictGet kvs "zip", dictGet kvs "postal"]
          let country := dictGet kvs "country"
          pyJoin ", " (([.vStr j1, .vStr cityState, postal, country] : List Value).filter truthy)

/-- The `t += float(p) * int(q)` loop of `build_order_summary`; `none`
models any exception inside the enclosing `try`. -/
def computeItemsSum : List Value → Rat → Option Rat
  | [], acc => some acc
  | it :: rest, acc =>
      match it with
      | .vObj kvs =>
          let p := orChain [dictGet kvs "price", dictGet kvs "unit_price", dictGet kvs "amount"]
          let q := orChain [dictGet kvs "qty", dictGet kvs "quantity", .vInt 1]
          match p with
          | .vNull => computeItemsSum rest acc
          | pv =>
              match pyFloat pv, pyInt q with
              | some pf, some qi => computeItemsSum rest (acc + pf * (qi : Rat))
              | _, _ => none
      | _ => none

/-- The derived-total computation of `build_order_summary` (the second
`try` block): items sum plus shipping and tax when truthy; any exception
or a zero result leaves the total unset. -/
def computeTotal (items : Value) (shipping tax : Value) : Option Rat :=
  let t0 : Option Rat :=
    match items with
    | .vList xs => computeItemsSum xs 0
    | _ => some 0
  match t0 with
  | none => none
  | some t1 =>
      let t2 : Option Rat :=
        if truthy shipping then (pyFloat shipping).map (fun f => t1 + f) else some t1
      match t2 with
      | none => none
      | some t2v =>
          let t3 : Option Rat :=
            if truthy tax then (pyFloat tax).map (fun f => t2v + f) else some t2v
          match t3 with
          | none => none
          | some t3v => if t3v = 0 then none else some t3v

/-- `isinstance(x, (int, float))`; Python `bool` is a subclass of `int`. -/
def isNumInst : Value → Bool
  | .vInt _ => true
  | .vFloat _ => true
  | .vBool _ => true
  | _ => false

/-- The optional sentences of the summary (`if x: parts.append(f"…{x}.")`). -/
def optPart (v : Value) (pre : String) : List String :=
  if truthy v then [pre ++ pyStr v ++ "."] else []

/-- The `items_str` step of `build_order_summary` (`format_items` on a
list, `str()` otherwise); the only source of exceptions besides the
address composition. -/
def summaryItemsStr (order : Obj) : Except Unit String :=
  match orV (getFirst order ["items", "line_items", "order_items"]) (.vList []) with
  | .vList xs => format_items xs
  | other => .ok (pyStr other)

/-- The `addr` step of `build_order_summary`: compose a structured
address, or fall back to the raw value / placeholder. -/
def summaryAddr (order : Obj) : Except Unit Value :=
  match getFirst order ["shipping.address", "shipping_address", "shippingAddress", "address"] with
  | .vObj kvs =>
      match composeAddr kvs with
      | .error e => .error e
      | .ok s => .ok (.vStr s)
  | sa => .ok (orV sa (.vStr "(no shipping address)"))

/-- The exception-free tail of `build_order_summary`: totals, optional
sentences, email insertion at position 1, and the final join. -/
def summaryCore (order : Obj) (items_str : String) (addr : Value) : String :=
  let customer_name := getFirst order ["customer_name", "customer.name", "name", "customer_name"]
  let customer_email := getFirst order ["customer_email", "email", "customer.email"]
  let order_number := orV (getFirst order ["order_number", "order_id", "id"]) (.vStr "(unknown order)")
  let items := orV (getFirst order ["items", "line_items", "order_items"]) (.vList [])
  let total := getFirst order ["total_amount", "total", "grand_total", "amount"]
  let tax := getFirst order ["tax", "tax_amount", "taxAmount"]
  let shipping_cost := getFirst order ["shipping_cost", "shipping.amount", "shipping_cost"]
  let total_val : Option Rat :=
    match pyFloat total with
    | some q => some q
    | none => computeTotal items shipping_cost tax
  let total_s : Option String :=
    match total_val with
    | some q => fmtCurrency (.vFloat q)
    | none => if isNumInst total then fmtCurrency total else none
  let status := orV (getFirst order ["status"]) (.vStr "(unknown)")
  let tracking := getFirst order ["shipping.tracking_number", "tracking_number", "tracking",
    "shipping.tracking"]
  let delivered_date := getFirst order ["delivered_at", "delivery_date", "shipping.delivered_at"]
  let delivered_s : Value := if truthy delivered_date then fmtDate delivered_date else .vNull
  let notes := getFirst order ["notes", "note", "customer_notes", "internal_notes"]
  let greet := if truthy customer_name then "Hello " ++ pyStr customer_name ++ "! " else "Hello! "
  let parts0 : List String :=
    [greet ++ "Your order " ++ pyStr order_number ++ " is " ++ pyStr status ++ "."]
    ++ ["Items: " ++ items_str ++ "."]
    ++ (match total_s with
        | some s => if !s.isEmpty then ["Total: " ++ s ++ "."] else []
        | none => [])
    ++ (if truthy addr then ["Shipping to: " ++ pyStr addr ++ "."] else [])
    ++ optPart tracking "Tracking: "
    ++ (if truthy delivered_s then ["Delivered on: " ++ pyStr delivered_s ++ "."] else [])
    ++ optPart notes "Notes: "
  let parts : List String :=
    if truthy customer_email then
      match parts0 with
      | p0 :: rest => p0 :: ("Customer email: " ++ pyStr customer_email ++ ".") :: rest
      | [] => ["Customer email: " ++ pyStr customer_email ++ "."]
    else parts0
  String.intercalate " " parts

/-- `build_order_summary` from `assistant.py`. -/
def build_order_summary (order : Obj) : Except Unit String :=
  match summaryItemsStr order with
  | .error e => .error e
  | .ok items_str =>
      match summaryAddr order with
      | .error e => .error e
      | .ok addr => .ok (summaryCore order items_str addr)

/-- The branch chain of `extract_field` from `assistant.py`, keyed by the
already-lowercased field name.  The result is a `Value` rather than a
`String` because the date branch returns `_fmt_date`'s result, which
passes non-string values through unchanged. -/
def extractByKey (order : Obj) (f : String) : Except Unit Value :=
  if f = "status" ∨ f = "order status" then
    .ok (.vStr (pyStr (orV (getFirst order ["status"]) (.vStr "(unknown)"))))
  else if f = "total" ∨ f = "total cost" ∨ f = "total amount" ∨ f = "total price" then
    match getFirst order ["total_amount", "total", "grand_total", "amount"] with
    | .vNull =>
        match build_order_summary order with
        | .error e => .error e
        | .ok s => .ok (.vStr s)
    | total =>
        if isNumInst total then .ok (.vStr ((fmtCurrency total).getD ""))
        else if (pyFloat total).isSome then
          .ok (.vStr ((fmtCurrency (.vFloat ((pyFloat total).getD 0))).getD ""))
        else .ok (.vStr (pyStr total))
  else if f = "shipping address" ∨ f = "shipping" ∨ f = "address" then
    match getFirst order ["shipping.address", "shipping_address", "address"] with
    | .vObj kvs =>
        match composeAddr kvs with
        | .error e => .error e
        | .ok s => .ok (.vStr s)
    | sa => .ok (.vStr (pyStr (orV sa (.vStr "(no shipping address)"))))
  else if f = "tracking" ∨ f = "tracking number" then
    .ok (.vStr (pyStr (orV (getFirst order ["shipping.tracking_number", "tracking_number", "tracking"])
      (.vStr "(no tracking number)"))))
  else if f = "items" ∨ f = "order items" then
    match orV (getFirst order ["items", "line_items", "order_items"]) (.vList []) with
    | .vList xs =>
        match format_items xs with
        | .error e => .error e
        | .ok s => .ok (.vStr s)
    | other => .ok (.vStr (pyStr other))
  else if f = "customer" ∨ f = "customer name" ∨ f = "name" then
    .ok (.vStr (pyStr (orV (getFirst order ["customer_name", "customer.name", "name"]) (.vStr "(no name)"))))
  else if f = "email" ∨ f = "customer email" then
    .ok (.vStr (pyStr (orV (getFirst order ["customer_email", "email", "customer.email"]) (.vStr "(no email)"))))
  else if f = "notes" ∨ f = "note" then
    .ok (.vStr (pyStr (orV (getFirst order ["notes", "note", "customer_notes", "internal_notes"])
      (.vStr "(no notes)"))))
  else if f = "date" ∨ f = "order date" then
    if truthy (getFirst order ["order_date", "created_at", "date"]) then
      .ok (fmtDate (getFirst order ["order_date", "created_at", "date"]))
    else .ok (.vStr "(no date)")
  else
    match build_order_summary order with
    | .error e => .error e
    | .ok s => .ok (.vStr s)

/-- `extract_field` from `assistant.py` (`f = field.lower()` feeding the
branch chain of `extractByKey`). -/
def extract_field (order : Obj) (field : String) : Except Unit Value :=
  extractByKey order (lowerStr field)

/-- Substring containment on character lists (Python `sub in hay`). -/
def subIn (sub : List Char) : List Char → Bool
  | [] => sub.isEmpty
  | c :: rest => startsWithChars sub (c :: rest) || subIn sub rest

/-- Python `sub in hay` on strings. -/
def strContains (hay sub : String) : Bool :=
  subIn sub.data hay.data

/-- `any(k in text for k in keys)`. -/
def containsAny (hay : String) (keys : List String) : Bool :=
  keys.any (fun k => strContains hay k)

/-- A match of the regex `ORD-\d{4}-\d{3}` anchored at the head of the
character list. -/
def matchOrderAt : List Char → Option (List Char)
  | 'O' :: 'R' :: 'D' :: '-' :: a :: b :: c :: d :: '-' :: e :: f :: g :: _ =>
      if [a, b, c, d, e, f, g].all Char.isDigit then
        some ['O', 'R', 'D', '-', a, b, c, d, '-', e, f, g]
      else none
  | _ => none

/-- Leftmost match of `ORD-\d{4}-\d{3}` (`re.search` semantics). -/
def findOrderTokenAux : List Char → Option (List Char)
  | [] => none
  | c :: rest =>
      match matchOrderAt (c :: rest) with
      | some tok => some tok
      | none => findOrderTokenAux rest

/-- `re.search(ORDER_NUMBER_PATTERN, s)` returning the matched token. -/
def findOrderToken (s : String) : Option String :=
  (findOrderTokenAux s.data).map (fun cs => ⟨cs⟩)

/-- Character class `[a-zA-Z0-9._%+-]` (the local part of the email regex). -/
def emailClassA (c : Char) : Bool :=
  c.isAlpha || c.isDigit || c == '.' || c == '_' || c == '%' || c == '+' || c == '-'

/-- Character class `[a-zA-Z0-9.-]` (the domain part of the email regex). -/
def emailClassB (c : Char) : Bool :=
  c.isAlpha || c.isDigit || c == '.' || c == '-'

/-- Backtracking of the greedy `[a-zA-Z0-9.-]+` against `\.[a-zA-Z]{2,}`:
try the split point `k` (the position of the literal dot inside the maximal
domain run `b`) from the longest prefix downward.  At a viable split the
final `[a-zA-Z]{2,}` is greedy, and nothing follows it in the pattern. -/
def emailSplit (b : List Char) : Nat → Option (List Char × List Char)
  | 0 => none
  | k + 1 =>
      let ls := (takeRun Char.isAlpha (b.drop (k + 2))).1
      if b.getD (k + 1) ' ' == '.' ∧ 2 ≤ ls.length then
        some (b.take (k + 1), ls)
      else emailSplit b k

/-- A match of the email regex anchored at the head of the list. -/
def matchEmailAt (cs : List Char) : Option (List Char) :=
  let ra := takeRun emailClassA cs
  if ra.1.isEmpty then none
  else
    match ra.2 with
    | '@' :: rest2 =>
        let b := (takeRun emailClassB rest2).1
        match emailSplit b (b.length - 1) with
        | some (bh, ls) => some (ra.1 ++ '@' :: (bh ++ '.' :: ls))
        | none => none
    | _ => none

/-- Leftmost match of the email regex (`re.search` semantics: on failure
the start position advances by one character). -/
def findEmailAux : List Char → Option (List Char)
  | [] => none
  | c :: rest =>
      match matchEmailAt (c :: rest) with
      | some tok => some tok
      | none => findEmailAux rest

/-- `re.search(EMAIL_PATTERN, s)` returning the matched address. -/
def findEmail (s : String) : Option String :=
  (findEmailAux s.data).map (fun cs => ⟨cs⟩)

/-- `detect_lookup_type` from `assistant.py`: `(type, value, field)`. -/
def detect_lookup_type (text : String) : Option String × Option String × Option String :=
  match findOrderToken (upperStr text) with
  | some order_number =>
      let t := lowerStr text
      let field : Option String :=
        if containsAny t ["total cost", "total of", "total for", "total cost of", "total:", "total"]
            && !strContains t "items" then some "total"
        else if containsAny t ["status", "order status"] then some "status"
        else if containsAny t ["shipping address", "shipping to", "ship to", "address"]
            && !strContains t "tracking" then some "shipping address"
        else if containsAny t ["tracking", "tracking number", "track"] then some "tracking"
        else if containsAny t ["items", "what\x27s in", "what are the items", "line items"] then
          some "items"
        else if containsAny t ["email", "customer email"] then some "email"
        else if containsAny t ["date", "order date", "when"] then some "date"
        else none
      (some "order", some order_number, field)
  | none =>
      match findEmail (lowerStr text) with
      | some email =>
          let t := lowerStr text
          let field : Option String :=
            if strContains t "status" then some "status"
            else if strContains t "total" && !strContains t "items" then some "total"
            else if strContains t "items" then some "items"
            else if strContains t "date" || strContains t "when" then some "date"
            else none
          (some "email", some email, field)
      | none => (none, none, none)

/-- The observable outcome of one HTTP POST to `/mcp/invoke` against one
endpoint: a transport exception, or a response with a status code and a
body (`none` = the body is not parseable JSON). -/
inductive Outcome where
  | timeout : Outcome
  | connErr : Outcome
  | exc : String → Outcome
  | response : Nat → Option Value → Outcome
deriving Repr

/-- Did the attempt yield a parseable JSON body (of any HTTP status)? -/
def isParse : Outcome → Bool
  | .response _ (some _) => true
  | _ => false

/-- The parsed body of a parseable response. -/
def bodyOf : Outcome → Value
  | .response _ (some v) => v
  | _ => .vNull

/-- The error string `call_mcp` records for a failed attempt. -/
def errStringOf (ep : String) : Outcome → String
  | .timeout => "Timeout from " ++ ep
  | .connErr => "Cannot connect to " ++ ep
  | .exc m => "Error from " ++ ep ++ ": " ++ m
  | .response _ _ => "Invalid JSON from " ++ ep

/-- The synthetic failure `call_mcp` returns after exhausting its budget. -/
def mcpUnavailable (errs : List String) : Value :=
  .vObj [("error", .vStr "mcp_unavailable"),
         ("details", .vStr "Could not reach order service. Please try again in a few minutes."),
         ("debug_info", .vStr (String.intercalate ", " errs))]

/-- The result of one dispatch: the returned value, the endpoints attempted
in order, and the per-endpoint error strings recorded. -/
structure Dispatch where
  result : Value
  attempted : List String
  errors : List String
deriving Repr

/-- `random.choice(available)`: one uniform draw, modelled by reading the
draw sequence `sel` at the current iteration and wrapping it into range. -/
def pickEp (sel : Nat → Nat) (i : Nat) (a : String) (rest : List String) : String :=
  (a :: rest).getD (sel i % (a :: rest).length) ""

/-- The retry loop of `call_mcp`: `sel` models `random.choice` (an index
draw per iteration), `orc` is the network. Each iteration filters out the
endpoints already tried, stops when none remain, picks one, and either
returns the parsed body at once (whatever the HTTP status) or records an
error string and loops. -/
def callMcpGo (eps : List String) (sel : Nat → Nat) (orc : String → Outcome) :
    Nat → Nat → List String → List String → Dispatch
  | 0, _, tried, errs => ⟨mcpUnavailable errs, tried, errs⟩
  | fuel + 1, i, tried, errs =>
      match eps.filter (fun e => !tried.contains e) with
      | [] => ⟨mcpUnavailable errs, tried, errs⟩
      | a :: rest =>
          match orc (pickEp sel i a rest) with
          | .response _ (some v) => ⟨v, tried ++ [pickEp sel i a rest], errs⟩
          | o =>
              callMcpGo eps sel orc fuel (i + 1) (tried ++ [pickEp sel i a rest])
                (errs ++ [errStringOf (pickEp sel i a rest) o])

/-- `RETRY_ATTEMPTS` from `assistant.py`. -/
def RETRY_ATTEMPTS : Nat := 2

/-- `call_mcp` with an explicit retry budget. -/
def call_mcp_with (retries : Nat) (eps : List String) (sel : Nat → Nat)
    (orc : String → Outcome) : Dispatch :=
  callMcpGo eps sel orc retries 0 [] []

/-- `call_mcp` from `assistant.py` (budget `RETRY_ATTEMPTS`). -/
def call_mcp (eps : List String) (sel : Nat → Nat) (orc : String → Outcome) : Dispatch :=
  call_mcp_with RETRY_ATTEMPTS eps sel orc

/-- `SESSION_MEMORY` as an explicit association list; keys are the values
Python would use as dict keys. -/
abbrev Cache := List (Value × Value)

/-- `key in SESSION_MEMORY` / `SESSION_MEMORY[key]`. -/
def cacheLookup : Cache → Value → Option Value
  | [], _ => none
  | (k, v) :: rest, key => if valEq k key then some v else cacheLookup rest key

/-- `SESSION_MEMORY[key] = v`: overwrite in place or append. -/
def cacheInsert : Cache → Value → Value → Cache
  | [], key, v => [(key, v)]
  | (k, w) :: rest, key, v =>
      if valEq k key then (k, v) :: rest else (k, w) :: cacheInsert rest key v

/-- `"error" in result` on a dict value. -/
def hasKeyB : Value → String → Bool
  | .vObj kvs, k => (objLookup kvs k).isSome
  | _, _ => false

/-- `result.get("orders", [])` as a list of iterated elements.  A non-list
value contributes no cacheable record: iterating a string yields
characters and iterating a dict yields string keys, neither of which pass
the `isinstance(o, dict)` guard (iterating a number aborts the turn
before any insertion). -/
def ordersOf (kvs : Obj) : List Value :=
  match objLookup kvs "orders" with
  | some (.vList xs) => xs
  | _ => []

/-- One iteration of the caching loop of the email path (source lines
510-514): a dict record with a truthy resolvable identifier is inserted
under that identifier. -/
def cacheOne (cache : Cache) (o : Value) : Cache :=
  match o with
  | .vObj kvs =>
      if truthy (getFirst kvs ["order_number", "order_id", "id"]) then
        cacheInsert cache (getFirst kvs ["order_number", "order_id", "id"]) o
      else cache
  | _ => cache

/-- The caching loop of the email path. -/
def cacheOrders (cache : Cache) : List Value → Cache
  | [] => cache
  | o :: rest => cacheOrders (cacheOne cache o) rest

/-- The resolvable identifier of a batch record: for a dict, the value of
`_get(o, "order_number", "order_id", "id")` when truthy; `none` for
non-dict records and falsy identifiers (which the caching loop skips). -/
def recId (o : Value) : Option Value :=
  match o with
  | .vObj kvs =>
      if truthy (getFirst kvs ["order_number", "order_id", "id"]) then
        some (getFirst kvs ["order_number", "order_id", "id"])
      else none
  | _ => none

/-- The decision produced by the free-text path for a turn in which no
order token or email was detected: the parsed model output either requests
the order-status tool with some `order_number` argument, requests another
tool, or is plain text. -/
inductive LlmAct where
  | orderTool : Value → LlmAct
  | otherTool : LlmAct
  | plain : LlmAct

/-- The session-memory and network effect of one user turn of
`interactive_loop`: the new cache and the number of `call_mcp`
invocations this turn.  `mcp` is the value the dispatcher returns if it
is invoked; `llm` is the free-text decision used when no lookup was
detected.  (The printed output is projected away; `orderPathOut` below
models the order-path rendering.  The `none` value case under an `order`
kind cannot arise: `detect_lookup_type` always pairs a kind with a
value.) -/
def runTurn (cache : Cache) (u : String) (mcp : Value) (llm : LlmAct) : Cache × Nat :=
  if (detect_lookup_type u).1 = some "order" then
    match (detect_lookup_type u).2.1 with
    | some order_number =>
        if (cacheLookup cache (.vStr order_number)).isSome then (cache, 0)
        else
          match mcp with
          | .vObj kvs =>
              if (objLookup kvs "error").isSome then (cache, 1)
              else (cacheInsert cache (.vStr order_number) (.vObj kvs), 1)
          | _ => (cache, 1)
    | none => (cache, 0)
  else if (detect_lookup_type u).1 = some "email" then
    match mcp with
    | .vObj kvs =>
        if (objLookup kvs "error").isSome then (cache, 1)
        else (cacheOrders cache (ordersOf kvs), 1)
    | _ => (cache, 1)
  else
    match llm with
    | .orderTool order_number =>
        if ¬truthy order_number then (cache, 0)
        else if (cacheLookup cache order_number).isSome then (cache, 0)
        else
          match mcp with
          | .vObj kvs =>
              if (objLookup kvs "error").isSome then (cache, 1)
              else (cacheInsert cache order_number (.vObj kvs), 1)
          | _ => (cache, 1)
    | .otherTool => (cache, 1)
    | .plain => (cache, 0)

/-- The response printed by the order path of `interactive_loop` once an
order record is in hand (source lines 453-488): keyword re-checks on the
lowercased input choose an `extract_field` call, then the detected field
slot, then the full summary. -/
def orderPathOut (order : Obj) (u : String) (order_number : String) (field : Option String) :
    Except Unit String :=
  let q := lowerStr u
  if containsAny q ["total cost", "total of", "total for", "total cost of", "total:", "total"]
      && !strContains q "items" then
    match extract_field order "total" with
    | .error e => .error e
    | .ok v => .ok ("The total cost of " ++ order_number ++ " is " ++ pyStr v ++ ".")
  else if containsAny q ["status", "order status"] then
    match extract_field order "status" with
    | .error e => .error e
    | .ok v => .ok (order_number ++ " status: " ++ pyStr v ++ ".")
  else if containsAny q ["shipping address", "shipping to", "ship to", "address"]
      && !strContains q "tracking" then
    match extract_field order "shipping address" with
    | .error e => .error e
    | .ok v => .ok ("Shipping address for " ++ order_number ++ ": " ++ pyStr v)
  else if containsAny q ["tracking", "tracking number", "track"] then
    match extract_field order "tracking" with
    | .error e => .error e
    | .ok v => .ok ("Tracking for " ++ order_number ++ ": " ++ pyStr v)
  else if containsAny q ["items", "what\x27s in", "what are the items", "line items"] then
    match extract_field order "items" with
    | .error e => .error e
    | .ok v => .ok ("Items in " ++ order_number ++ ": " ++ pyStr v)
  else if containsAny q ["email", "customer email"] then
    match extract_field order "email" with
    | .error e => .error e
    | .ok v => .ok ("Customer email for " ++ order_number ++ ": " ++ pyStr v)
  else
    match field with
    | some fld =>
        match extract_field order fld with
        | .error e => .error e
        | .ok v => .ok (order_number ++ " " ++ fld ++ ": " ++ pyStr v)
    | none =>
        match build_order_summary order with
        | .error e => .error e
        | .ok s => .ok s

/-- The text the order path would print for input `u` given the session
cache, when the record is already cached: the cached record fed through
`orderPathOut`.  Used to state that a repeated question observes the
identical record and output. -/
def orderTurnView (cache : Cache) (u : String) : Option (Except Unit String) :=
  match detect_lookup_type u with
  | (some "order", some num, f) =>
      match cacheLookup cache (.vStr num) with
      | some (.vObj kvs) => some (orderPathOut kvs u num f)
      | _ => none
  | _ => none

/-- A history record as assembled by `get_order_history_by_email` in
`app.py`: exactly the four projected keys, with values taken verbatim from
the database document. -/
def histRecord (num status total date : Value) : Value :=
  .vObj [("order_number", num), ("status", status), ("total_amount", total), ("order_date", date)]

/-- The JSON bodies the MCP server in `app.py` can serve on `/mcp/invoke`
for a given tool, as the client parses them.  FastAPI renders a raised
`HTTPException` as a `{"detail": ...}` JSON body carrying the error
status (503 when the database is unavailable, 400 for missing arguments,
404 for an unknown tool). -/
inductive BackendResp : String → Value → Prop where
  | dbUnavailable (tool : String) :
      BackendResp tool (.vObj [("detail", .vStr "database unavailable")])
  | badRequest (tool msg : String) :
      BackendResp tool (.vObj [("detail", .vStr msg)])
  | historyOk (email : String) (recs : List (Value × Value × Value × Value)) :
      BackendResp "get_order_history_by_email"
        (.vObj [("email", .vStr email),
                ("orders", .vList (recs.map (fun r => histRecord r.1 r.2.1 r.2.2.1 r.2.2.2)))])
  | statusNotFound (num : String) :
      BackendResp "get_order_status"
        (.vObj [("error", .vStr "not_found"), ("order_number", .vStr num)])
  | statusOk (doc : Obj) :
      BackendResp "get_order_status" (.vObj doc)

/-- The tool `interactive_loop` would dispatch on a given turn. -/
def turnTool (u : String) (llm : LlmAct) : String :=
  if (detect_lookup_type u).1 = some "order" then "get_order_status"
  else if (detect_lookup_type u).1 = some "email" then "get_order_history_by_email"
  else
    match llm with
    | .orderTool _ => "get_order_status"
    | _ => "other"

/-- Cache invariant: no stored value bears the `"error"` discriminant
(neither the dispatcher's synthetic failure nor a `{"error": ...}` body). -/
def CacheInv (cache : Cache) : Prop :=
  ∀ kv ∈ cache, hasKeyB kv.2 "error" = false

/-- A field-slot rule: a predicate on the lowercased text and the field it
selects. -/
abbrev FieldRule := (String → Bool) × String

/-- First-match-wins evaluation of an ordered rule list. -/
def runRules : List FieldRule → String → Option String
  | [], _ => none
  | (p, f) :: rest, t => if p t then some f else runRules rest t

/-- The order-path field rules of `detect_lookup_type`, as data. -/
def orderFieldRules : List FieldRule :=
  [(fun t => containsAny t ["total cost", "total of", "total for", "total cost of", "total:", "total"]
      && !strContains t "items", "total"),
   (fun t => containsAny t ["status", "order status"], "status"),
   (fun t => containsAny t ["shipping address", "shipping to", "ship to", "address"]
      && !strContains t "tracking", "shipping address"),
   (fun t => containsAny t ["tracking", "tracking number", "track"], "tracking"),
   (fun t => containsAny t ["items", "what\x27s in", "what are the items", "line items"], "items"),
   (fun t => containsAny t ["email", "customer email"], "email"),
   (fun t => containsAny t ["date", "order date", "when"], "date")]

/-- The email-path field rules of `detect_lookup_type`, as data. -/
def emailFieldRules : List FieldRule :=
  [(fun t => strContains t "status", "status"),
   (fun t => strContains t "total" && !strContains t "items", "total"),
   (fun t => strContains t "items", "items"),
   (fun t => strContains t "date" || strContains t "when", "date")]

/-- Modelled from the claims of the specification (§4.3): the single fixed
field priority — total (unless "items"), status, shipping (unless
"tracking"), tracking, items, email, date — asserted there to govern BOTH
lookup kinds.  Used to compare the asserted policy with the code's. -/
def claimFieldPriority (t : String) : Option String :=
  runRules orderFieldRules t

/-- The record shapes on which the field extractor cannot raise: the
resolved line items (if a list) format successfully (each item a dict with
an int-convertible quantity), any structured shipping address found under
either key chain composes (its components are strings), and a truthy
resolved date value is a string. -/
def WellTyped (order : Obj) : Prop :=
  (match orV (getFirst order ["items", "line_items", "order_items"]) (.vList []) with
   | .vList xs => ∃ s, format_items xs = .ok s
   | _ => True) ∧
  (match getFirst order ["shipping.address", "shipping_address", "shippingAddress", "address"] with
   | .vObj kvs => ∃ s, composeAddr kvs = .ok s
   | _ => True) ∧
  (match getFirst order ["shipping.address", "shipping_address", "address"] with
   | .vObj kvs => ∃ s, composeAddr kvs = .ok s
   | _ => True) ∧
  (truthy (getFirst order ["order_date", "created_at", "date"]) = true →
    ∃ s, getFirst order ["order_date", "created_at", "date"] = .vStr s)

/-- `detect_lookup_type` case split: an order token wins, else an email,
else nothing; in the first two cases the field slot is the corresponding
rule list evaluated first-match-wins on the lowercased text. -/
theorem detect_cases (t : String) :
    (∃ num, findOrderToken (upperStr t) = some num ∧
        detect_lookup_type t = (some "order", some num, runRules orderFieldRules (lowerStr t))) ∨
    (findOrderToken (upperStr t) = none ∧ (∃ em, findEmail (lowerStr t) = some em ∧
        detect_lookup_type t = (some "email", some em, runRules emailFieldRules (lowerStr t)))) ∨
    (findOrderToken (upperStr t) = none ∧ findEmail (lowerStr t) = none ∧
        detect_lookup_type t = (none, none, none)) := by
  cases hf : findOrderToken (upperStr t) with
  | some num =>
      left
      refine ⟨num, rfl, ?_⟩
      unfold detect_lookup_type
      rw [hf]
      rfl
  | none =>
      cases he : findEmail (lowerStr t) with
      | some em =>
          right; left
          refine ⟨rfl, em, rfl, ?_⟩
          unfold detect_lookup_type
          rw [hf, he]
          rfl
      | none =>
          right; right
          refine ⟨rfl, rfl, ?_⟩
          unfold detect_lookup_type
          rw [hf, he]

/-- When every rule that could fire selects something other than `fld`,
the evaluation cannot return `fld`. -/
theorem runRules_ne (fld : String) : ∀ (rs : List FieldRule) (t : String),
    (∀ r ∈ rs, r.1 t = true → r.2 ≠ fld) → runRules rs t ≠ some fld
  | [], t, _ => by simp [runRules]
  | (p, f) :: rest, t, h => by
      simp only [runRules]
      split
      · intro hc
        injection hc with hc
        exact h (p, f) (List.mem_cons_self _ _) (by assumption) hc
      · exact runRules_ne fld rest t (fun r hr => h r (List.mem_cons_of_mem _ hr))

/-- With "items" in the text, no order-path rule can select `total`. -/
theorem runRules_order_ne_total (t : String) (h : strContains t "items" = true) :
    runRules orderFieldRules t ≠ some "total" := by
  apply runRules_ne
  intro r hr hp
  simp only [orderFieldRules, List.mem_cons, List.not_mem_nil, or_false] at hr
  rcases hr with h1 | h1 | h1 | h1 | h1 | h1 | h1 <;> subst h1 <;> revert hp <;> simp [h]

/-- With "items" in the text, no email-path rule can select `total`. -/
theorem runRules_email_ne_total (t : String) (h : strContains t "items" = true) :
    runRules emailFieldRules t ≠ some "total" := by
  apply runRules_ne
  intro r hr hp
  simp only [emailFieldRules, List.mem_cons, List.not_mem_nil, or_false] at hr
  rcases hr with h1 | h1 | h1 | h1 <;> subst h1 <;> revert hp <;> simp [h]

mutual

theorem valEq_refl : ∀ v : Value, valEq v v = true
  | .vNull => rfl
  | .vBool a => by simp [valEq]
  | .vInt a => by simp [valEq]
  | .vFloat a => by simp [valEq]
  | .vStr a => by simp [valEq]
  | .vList a => by simp [valEq, valEqList_refl a]
  | .vObj a => by simp [valEq, valEqObj_refl a]

theorem valEqList_refl : ∀ xs : List Value, valEqList xs xs = true
  | [] => rfl
  | a :: as => by simp [valEqList, valEq_refl a, valEqList_refl as]

theorem valEqObj_refl : ∀ kvs : Obj, valEqObj kvs kvs = true
  | [] => rfl
  | (k, a) :: as => by simp [valEqObj, valEq_refl a, valEqObj_refl as]

end

mutual

theorem valEq_eq : ∀ a b : Value, valEq a b = true → a = b
  | .vNull, .vNull, _ => rfl
  | .vBool a, .vBool b, h => by simp [valEq] at h; simp [h]
  | .vInt a, .vInt b, h => by simp [valEq] at h; simp [h]
  | .vFloat a, .vFloat b, h => by simp [valEq] at h; simp [h]
  | .vStr a, .vStr b, h => by simp [valEq] at h; simp [h]
  | .vList a, .vList b, h => by
      simp only [valEq] at h
      simp [valEqList_eq a b h]
  | .vObj a, .vObj b, h => by
      simp only [valEq] at h
      simp [valEqObj_eq a b h]
  | .vNull, .vBool _, h => by simp [valEq] at h
  | .vNull, .vInt _, h => by simp [valEq] at h
  | .vNull, .vFloat _, h => by simp [valEq] at h
  | .vNull, .vStr _, h => by simp [valEq] at h
  | .vNull, .vList _, h => by simp [valEq] at h
  | .vNull, .vObj _, h => by simp [valEq] at h
  | .vBool _, .vNull, h => by simp [valEq] at h
  | .vBool _, .vInt _, h => by simp [valEq] at h
  | .vBool _, .vFloat _, h => by simp [valEq] at h
  | .vBool _, .vStr _, h => by simp [valEq] at h
  | .vBool _, .vList _, h => by simp [valEq] at h
  | .vBool _, .vObj _, h => by simp [valEq] at h
  | .vInt _, .vNull, h => by simp [valEq] at h
  | .vInt _, .vBool _, h => by simp [valEq] at h
  | .vInt _, .vFloat _, h => by simp [valEq] at h
  | .vInt _, .vStr _, h => by simp [valEq] at h
  | .vInt _, .vList _, h => by simp [valEq] at h
  | .vInt _, .vObj _, h => by simp [valEq] at h
  | .vFloat _, .vNull, h => by simp [valEq] at h
  | .vFloat _, .vBool _, h => by simp [valEq] at h
  | .vFloat _, .vInt _, h => by simp [valEq] at h
  | .vFloat _, .vStr _, h => by simp [valEq] at h
  | .vFloat _, .vList _, h => by simp [valEq] at h
  | .vFloat _, .vObj _, h => by simp [valEq] at h
  | .vStr _, .vNull, h => by simp [valEq] at h
  | .vStr _, .vBool _, h => by simp [valEq] at h
  | .vStr _, .vInt _, h => by simp [valEq] at h
  | .vStr _, .vFloat _, h => by simp [valEq] at h
  | .vStr _, .vList _, h => by simp [valEq] at h
  | .vStr _, .vObj _, h => by simp [valEq] at h
  | .vList _, .vNull, h => by simp [valEq] at h
  | .vList _, .vBool _, h => by simp [valEq] at h
  | .vList _, .vInt _, h => by simp [valEq] at h
  | .vList _, .vFloat _, h => by simp [valEq] at h
  | .vList _, .vStr _, h => by simp [valEq] at h
  | .vList _, .vObj _, h => by simp [valEq] at h
  | .vObj _, .vNull, h => by simp [valEq] at h
  | .vObj _, .vBool _, h => by simp [valEq] at h
  | .vObj _, .vInt _, h => by simp [valEq] at h
  | .vObj _, .vFloat _, h => by simp [valEq] at h
  | .vObj _, .vStr _, h => by simp [valEq] at h
  | .vObj _, .vList _, h => by simp [valEq] at h

theorem valEqList_eq : ∀ a b : List Value, valEqList a b = true → a = b
  | [], [], _ => rfl
  | [], _ :: _, h => by simp [valEqList] at h
  | _ :: _, [], h => by simp [valEqList] at h
  | a :: as, b :: bs, h => by
      simp only [valEqList, Bool.and_eq_true] at h
      simp [valEq_eq a b h.1, valEqList_eq as bs h.2]

theorem valEqObj_eq : ∀ a b : Obj, valEqObj a b = true → a = b
  | [], [], _ => rfl
  | [], _ :: _, h => by simp [valEqObj] at h
  | _ :: _, [], h => by simp [valEqObj] at h
  | (k, a) :: as, (k2, b) :: bs, h => by
      simp only [valEqObj, Bool.and_eq_true] at h
      obtain ⟨⟨hk, hv⟩, hrest⟩ := h
      simp only [beq_iff_eq] at hk
      simp [hk, valEq_eq a b hv, valEqObj_eq as bs hrest]

end

/-- Decidable equality of values, via `valEq`. -/
instance : DecidableEq Value := fun a b =>
  if h : valEq a b = true then .isTrue (valEq_eq a b h)
  else .isFalse (fun he => h (by subst he; exact valEq_refl a))

/-- A truthy string value passed to `_fmt_date` always comes back as a
string (formatted or passed through). -/
theorem fmtDate_str (s : String) (h : truthy (.vStr s) = true) :
    ∃ t, fmtDate (.vStr s) = .vStr t := by
  unfold fmtDate
  rw [if_neg (by simp [h])]
  cases hp : isoParse s.data with
  | some ymd => simp [hp]
  | none =>
      simp only [hp]
      cases hq : isoParse (stripZ s).data with
      | some ymd => simp [hq]
      | none => simp [hq]

/-- `build_order_summary` succeeds whenever the resolved items format and
any structured shipping address composes. -/
theorem build_order_summary_ok (order : Obj)
    (h1 : match orV (getFirst order ["items", "line_items", "order_items"]) (.vList []) with
          | .vList xs => ∃ s, format_items xs = .ok s
          | _ => True)
    (h2 : match getFirst order ["shipping.address", "shipping_address", "shippingAddress",
            "address"] with
          | .vObj kvs => ∃ s, composeAddr kvs = .ok s
          | _ => True) :
    ∃ s, build_order_summary order = .ok s := by
  have hi : ∃ s, summaryItemsStr order = .ok s := by
    unfold summaryItemsStr
    cases hv : orV (getFirst order ["items", "line_items", "order_items"]) (.vList []) with
    | vList xs => rw [hv] at h1; exact h1
    | vNull => exact ⟨_, rfl⟩
    | vBool b => exact ⟨_, rfl⟩
    | vInt n => exact ⟨_, rfl⟩
    | vFloat q => exact ⟨_, rfl⟩
    | vStr s => exact ⟨_, rfl⟩
    | vObj kvs => exact ⟨_, rfl⟩
  have ha : ∃ v, summaryAddr order = .ok v := by
    unfold summaryAddr
    cases hv : getFirst order ["shipping.address", "shipping_address", "shippingAddress",
        "address"] with
    | vObj kvs =>
        rw [hv] at h2
        obtain ⟨s, hs⟩ := h2
        simp [hs]
    | vNull => exact ⟨_, rfl⟩
    | vBool b => exact ⟨_, rfl⟩
    | vInt n => exact ⟨_, rfl⟩
    | vFloat q => exact ⟨_, rfl⟩
    | vStr s => exact ⟨_, rfl⟩
    | vList xs => exact ⟨_, rfl⟩
  obtain ⟨si, hsi⟩ := hi
  obtain ⟨va, hva⟩ := ha
  unfold build_order_summary
  rw [hsi, hva]
  exact ⟨_, rfl⟩

/-- The selected endpoint is one of the available ones. -/
theorem pickEp_mem (sel : Nat → Nat) (i : Nat) (a : String) (rest : List String) :
    pickEp sel i a rest ∈ a :: rest := by
  unfold pickEp
  have h : sel i % (a :: rest).length < (a :: rest).length :=
    Nat.mod_lt _ (by simp)
  rw [List.getD_eq_getElem?_getD, List.getElem?_eq_getElem h]
  exact List.getElem_mem _

/-- Exhaustive characterization of the retry loop of `call_mcp`: the
attempted endpoints extend `tried` by fresh, pairwise-distinct endpoints
of the registry, at most `fuel` of them; either some final attempt parsed
(any HTTP status) and its body is the result, with one error string per
earlier attempt, or every attempt failed to parse, each got an error
string, the synthetic failure is returned, and the loop stopped because
the budget or the endpoints ran out. -/
theorem callMcpGo_spec (eps : List String) (sel : Nat → Nat) (orc : String → Outcome) :
    ∀ (fuel i : Nat) (tried errs : List String),
      ∃ new : List String,
        (callMcpGo eps sel orc fuel i tried errs).attempted = tried ++ new ∧
        new.Nodup ∧
        (∀ e ∈ new, e ∈ eps ∧ e ∉ tried) ∧
        new.length ≤ fuel ∧
        ((∃ pre last, new = pre ++ [last] ∧ (∀ e ∈ pre, isParse (orc e) = false) ∧
            isParse (orc last) = true ∧
            (callMcpGo eps sel orc fuel i tried errs).result = bodyOf (orc last) ∧
            (callMcpGo eps sel orc fuel i tried errs).errors
              = errs ++ pre.map (fun e => errStringOf e (orc e))) ∨
         ((∀ e ∈ new, isParse (orc e) = false) ∧
            (callMcpGo eps sel orc fuel i tried errs).errors
              = errs ++ new.map (fun e => errStringOf e (orc e)) ∧
            (callMcpGo eps sel orc fuel i tried errs).result
              = mcpUnavailable (errs ++ new.map (fun e => errStringOf e (orc e))) ∧
            (fuel ≤ new.length ∨ ∀ e ∈ eps, e ∈ tried ++ new))) := by
  intro fuel
  induction fuel with
  | zero =>
      intro i tried errs
      refine ⟨[], by simp [callMcpGo], List.nodup_nil, by simp, by simp, Or.inr ?_⟩
      simp [callMcpGo]
  | succ fuel ih =>
      intro i tried errs
      unfold callMcpGo
      split
      next hav =>
        refine ⟨[], by simp, List.nodup_nil, by simp, by simp, Or.inr ?_⟩
        refine ⟨by simp, by simp, by simp, Or.inr ?_⟩
        intro e he
        rw [List.append_nil]
        rw [List.filter_eq_nil_iff] at hav
        have := hav e he
        simp only [Bool.not_eq_true', Bool.not_eq_false] at this
        exact List.elem_iff.mp this
      next a rest hav =>
        have hmemav : pickEp sel i a rest ∈ eps.filter (fun e => !tried.contains e) := by
          rw [hav]; exact pickEp_mem sel i a rest
        rw [List.mem_filter] at hmemav
        obtain ⟨hmeme, hnt⟩ := hmemav
        have hnotried : pickEp sel i a rest ∉ tried := by
          intro hc
          rw [Bool.not_eq_true'] at hnt
          have hcc : tried.contains (pickEp sel i a rest) = true := List.elem_iff.mpr hc
          rw [hcc] at hnt
          cases hnt
        have step : ∀ o : Outcome, orc (pickEp sel i a rest) = o → isParse o = false →
            ∃ new : List String,
              (callMcpGo eps sel orc fuel (i + 1) (tried ++ [pickEp sel i a rest])
                  (errs ++ [errStringOf (pickEp sel i a rest) o])).attempted
                = tried ++ (pickEp sel i a rest :: new) ∧
              (pickEp sel i a rest :: new).Nodup ∧
              (∀ e ∈ pickEp sel i a rest :: new, e ∈ eps ∧ e ∉ tried) ∧
              (pickEp sel i a rest :: new).length ≤ fuel + 1 ∧
              ((∃ pre last, pickEp sel i a rest :: new = pre ++ [last] ∧
                  (∀ e ∈ pre, isParse (orc e) = false) ∧
                  isParse (orc last) = true ∧
                  (callMcpGo eps sel orc fuel (i + 1) (tried ++ [pickEp sel i a rest])
                      (errs ++ [errStringOf (pickEp sel i a rest) o])).result = bodyOf (orc last) ∧
                  (callMcpGo eps sel orc fuel (i + 1) (tried ++ [pickEp sel i a rest])
                      (errs ++ [errStringOf (pickEp sel i a rest) o])).errors
                    = errs ++ pre.map (fun e => errStringOf e (orc e))) ∨
               ((∀ e ∈ pickEp sel i a rest :: new, isParse (orc e) = false) ∧
                  (callMcpGo eps sel orc fuel (i + 1) (tried ++ [pickEp sel i a rest])
                      (errs ++ [errStringOf (pickEp sel i a rest) o])).errors
                    = errs ++ (pickEp sel i a rest :: new).map (fun e => errStringOf e (orc e)) ∧
                  (callMcpGo eps sel orc fuel (i + 1) (tried ++ [pickEp sel i a rest])
                      (errs ++ [errStringOf (pickEp sel i a rest) o])).result
                    = mcpUnavailable
                        (errs ++ (pickEp sel i a rest :: new).map (fun e => errStringOf e (orc e))) ∧
                  (fuel + 1 ≤ (pickEp sel i a rest :: new).length ∨
                    ∀ e ∈ eps, e ∈ tried ++ (pickEp sel i a rest :: new)))) := by
          intro o ho hop
          obtain ⟨new, hatt, hnd, hmem, hlen, hdisj⟩ :=
            ih (i + 1) (tried ++ [pickEp sel i a rest])
              (errs ++ [errStringOf (pickEp sel i a rest) o])
          refine ⟨new, ?_, ?_, ?_, by simp only [List.length_cons]; omega, ?_⟩
          · rw [hatt]; simp
          · refine List.nodup_cons.mpr ⟨fun hc => ?_, hnd⟩
            exact (hmem _ hc).2 (by simp)
          · intro e he
            rcases List.mem_cons.mp he with rfl | he2
            · exact ⟨hmeme, hnotried⟩
            · obtain ⟨he3, he4⟩ := hmem e he2
              refine ⟨he3, fun hc => he4 ?_⟩
              simp [hc]
          · rcases hdisj with ⟨pre, last, hpre, hpf, hpl, hres, herr⟩ |
              ⟨hfail, herr, hres, hstop⟩
            · refine Or.inl ⟨pickEp sel i a rest :: pre, last, by rw [hpre]; rfl, ?_, hpl, hres, ?_⟩
              · intro e he
                rcases List.mem_cons.mp he with rfl | he2
                · rw [ho]; exact hop
                · exact hpf e he2
              · simp [herr, ho]
            · refine Or.inr ⟨?_, ?_, ?_, ?_⟩
              · intro e he
                rcases List.mem_cons.mp he with rfl | he2
                · rw [ho]; exact hop
                · exact hfail e he2
              · simp [herr, ho]
              · simp [hres, ho]
              · rcases hstop with hlen2 | hcov
                · exact Or.inl (by simp only [List.length_cons]; omega)
                · refine Or.inr fun e he => ?_
                  have := hcov e he
                  simpa using this
        cases ho : orc (pickEp sel i a rest) with
        | response st body =>
            cases body with
            | some v =>
                refine ⟨[pickEp sel i a rest], rfl, List.nodup_singleton _, ?_, by simp,
                  Or.inl ⟨[], pickEp sel i a rest, by simp, by simp, by rw [ho]; rfl,
                    by rw [ho]; rfl, by simp⟩⟩
                intro e he
                rw [List.mem_singleton] at he
                subst he
                exact ⟨hmeme, hnotried⟩
            | none =>
                obtain ⟨new, hgoal⟩ := step (.response st none) ho rfl
                exact ⟨pickEp sel i a rest :: new, hgoal⟩
        | timeout =>
            obtain ⟨new, hgoal⟩ := step .timeout ho rfl
            exact ⟨pickEp sel i a rest :: new, hgoal⟩
        | connErr =>
            obtain ⟨new, hgoal⟩ := step .connErr ho rfl
            exact ⟨pickEp sel i a rest :: new, hgoal⟩
        | exc m =>
            obtain ⟨new, hgoal⟩ := step (.exc m) ho rfl
            exact ⟨pickEp sel i a rest :: new, hgoal⟩

/-- Uppercasing fixes decimal digits. -/
theorem digit_toUpper (c : Char) (h : c.isDigit = true) : c.toUpper = c := by
  simp only [Char.isDigit, ge_iff_le, Bool.and_eq_true, decide_eq_true_eq] at h
  have h57 : c.val.toNat ≤ 57 := UInt32.toNat_le_of_le (by norm_num) h.2
  simp only [Char.toUpper]
  rw [if_neg]
  intro hcond
  have : (97 : Nat) ≤ c.val.toNat := hcond.1
  omega

/-- Any token matched by the order pattern is fixed by uppercasing: its
letters are the literal `ORD`, the rest digits and dashes. -/
theorem matchOrderAt_fixed : ∀ (cs tok : List Char), matchOrderAt cs = some tok →
    tok.map Char.toUpper = tok := by
  intro cs tok h
  unfold matchOrderAt at h
  split at h
  · rename_i a b c d e f g tail
    split_ifs at h with hdig
    · injection h with h
      subst h
      simp only [List.all_cons, List.all_nil, Bool.and_true, Bool.and_eq_true] at hdig
      obtain ⟨ha, hb, hc, hd2, he, hf, hg⟩ := hdig
      simp only [List.map_cons, List.map_nil, digit_toUpper _ ha, digit_toUpper _ hb,
        digit_toUpper _ hc, digit_toUpper _ hd2, digit_toUpper _ he, digit_toUpper _ hf,
        digit_toUpper _ hg]
      rfl
  · cases h

/-- The leftmost scanner only returns pattern matches, so its token is
fixed by uppercasing. -/
theorem findOrderTokenAux_fixed : ∀ (l tok : List Char), findOrderTokenAux l = some tok →
    tok.map Char.toUpper = tok
  | [], tok, h => by simp [findOrderTokenAux] at h
  | c :: rest, tok, h => by
      unfold findOrderTokenAux at h
      cases hm : matchOrderAt (c :: rest) with
      | some t2 =>
          rw [hm] at h
          injection h with h
          subst h
          exact matchOrderAt_fixed _ _ hm
      | none =>
          rw [hm] at h
          exact findOrderTokenAux_fixed rest tok h

/-- If the pattern matches anywhere in the text, the leftmost scanner
finds a match. -/
theorem findOrderTokenAux_isSome : ∀ (l : List Char) (i : Nat),
    (matchOrderAt (l.drop i)).isSome = true → (findOrderTokenAux l).isSome = true
  | [], i, h => by
      rw [List.drop_nil] at h
      rw [show matchOrderAt ([] : List Char) = none from rfl] at h
      cases h
  | c :: rest, 0, h => by
      rw [List.drop_zero] at h
      unfold findOrderTokenAux
      cases hm : matchOrderAt (c :: rest) with
      | some tok => simp
      | none => rw [hm] at h; cases h
  | c :: rest, i + 1, h => by
      unfold findOrderTokenAux
      cases hm : matchOrderAt (c :: rest) with
      | some tok => simp
      | none =>
          rw [List.drop_succ_cons] at h
          exact findOrderTokenAux_isSome rest i h

/-- `valEq` decides equality. -/
theorem valEq_iff (a b : Value) : valEq a b = true ↔ a = b :=
  ⟨valEq_eq a b, fun h => h ▸ valEq_refl a⟩

/-- Looking up the key just written returns the written value. -/
theorem cacheLookup_insert_self : ∀ (c : Cache) (k v : Value),
    cacheLookup (cacheInsert c k v) k = some v
  | [], k, v => by
      simp [cacheInsert, cacheLookup, valEq_refl]
  | (k2, w) :: rest, k, v => by
      unfold cacheInsert
      by_cases hq : valEq k2 k = true
      · rw [if_pos hq]
        unfold cacheLookup
        rw [if_pos hq]
      · rw [if_neg hq]
        unfold cacheLookup
        rw [if_neg hq]
        exact cacheLookup_insert_self rest k v

/-- Writing one key leaves every other key's lookup unchanged. -/
theorem cacheLookup_insert_other : ∀ (c : Cache) (k k2 v : Value), valEq k k2 = false →
    cacheLookup (cacheInsert c k v) k2 = cacheLookup c k2
  | [], k, k2, v, h => by
      simp [cacheInsert, cacheLookup, h]
  | (kh, w) :: rest, k, k2, v, h => by
      unfold cacheInsert
      by_cases hq : valEq kh k = true
      · rw [if_pos hq]
        have hkh : kh = k := valEq_eq _ _ hq
        subst hkh
        unfold cacheLookup
        rw [if_neg (by simp [h]), if_neg (by simp [h])]
      · rw [if_neg hq]
        unfold cacheLookup
        by_cases hq2 : valEq kh k2 = true
        · rw [if_pos hq2, if_pos hq2]
        · rw [if_neg hq2, if_neg hq2]
          exact cacheLookup_insert_other rest k k2 v h

/-- A record with a resolvable identifier is inserted under it. -/
theorem cacheOne_id (cache : Cache) (o k : Value) (h : recId o = some k) :
    cacheOne cache o = cacheInsert cache k o := by
  cases o with
  | vObj kvs =>
      simp only [recId] at h
      simp only [cacheOne]
      split_ifs at h ⊢ with ht
      injection h with h
      rw [h]
  | vNull => simp [recId] at h
  | vBool b => simp [recId] at h
  | vInt n => simp [recId] at h
  | vFloat q => simp [recId] at h
  | vStr s => simp [recId] at h
  | vList xs => simp [recId] at h

/-- A record without a resolvable identifier is skipped. -/
theorem cacheOne_none (cache : Cache) (o : Value) (h : recId o = none) :
    cacheOne cache o = cache := by
  cases o with
  | vObj kvs =>
      simp only [recId] at h
      simp only [cacheOne]
      split_ifs at h ⊢ with ht
      rfl
  | vNull => rfl
  | vBool b => rfl
  | vInt n => rfl
  | vFloat q => rfl
  | vStr s => rfl
  | vList xs => rfl

/-- Caching one record does not disturb lookups under other keys. -/
theorem cacheOne_preserve (cache : Cache) (o k : Value) (h : recId o ≠ some k) :
    cacheLookup (cacheOne cache o) k = cacheLookup cache k := by
  cases hr : recId o with
  | none => rw [cacheOne_none cache o hr]
  | some k2 =>
      rw [cacheOne_id cache o k2 hr]
      apply cacheLookup_insert_other
      by_cases hv : valEq k2 k = true
      · exact absurd (hr.trans (by rw [valEq_eq _ _ hv])) h
      · simpa using hv

/-- Caching a batch that never mentions key `k` preserves its lookup. -/
theorem cacheOrders_preserve : ∀ (os : List Value) (cache : Cache) (k : Value),
    (∀ o ∈ os, recId o ≠ some k) →
    cacheLookup (cacheOrders cache os) k = cacheLookup cache k
  | [], _, _, _ => rfl
  | o :: rest, cache, k, h => by
      unfold cacheOrders
      rw [cacheOrders_preserve rest _ k (fun o2 ho2 => h o2 (List.mem_cons_of_mem _ ho2))]
      exact cacheOne_preserve cache o k (h o (List.mem_cons_self _ _))

/-- After caching a batch whose identifiers are pairwise distinct, every
record is found under its own identifier. -/
theorem cacheOrders_lookup : ∀ (os : List Value) (cache : Cache) (o k : Value),
    o ∈ os → recId o = some k → (os.map recId).Nodup →
    cacheLookup (cacheOrders cache os) k = some o
  | [], _, _, _, hmem, _, _ => absurd hmem (List.not_mem_nil _)
  | o1 :: rest, cache, o, k, hmem, hid, hnd => by
      unfold cacheOrders
      rw [List.map_cons] at hnd
      obtain ⟨hnotin, hndrest⟩ := List.nodup_cons.mp hnd
      rcases List.mem_cons.mp hmem with rfl | hmem2
      · have hpres : ∀ o2 ∈ rest, recId o2 ≠ some k := by
          intro o2 ho2 hc
          apply hnotin
          rw [hid, ← hc]
          exact List.mem_map_of_mem recId ho2
        rw [cacheOrders_preserve rest (cacheOne cache o) k hpres]
        rw [cacheOne_id cache o k hid]
        exact cacheLookup_insert_self cache k o
      · exact cacheOrders_lookup rest (cacheOne cache o1) o k hmem2 hid hndrest

/-- Claim C1, counterexample: for the text "What's the total cost of
ORD-2024-001 items" — which contains an order token and both total- and
items-related keywords — the field slot resolves to `items`, not to
`total` as the claim asserts: the code's total rule is suppressed whenever
"items" occurs in the text. -/
theorem c1_counterexample :
    (detect_lookup_type "What\x27s the total cost of ORD-2024-001 items").2.2 = some "items" ∧
    some "items" ≠ (some "total" : Option String) := by
  exact ⟨rfl, by decide⟩

/-- Claim C1, amended: for every input text whose lowercasing contains
"items", the resolved field slot is never `total` (on both lookup paths
the total rule carries an "items" guard and no later rule yields
`total`); in particular the quoted example resolves to `items`. -/
theorem c1_amended (t : String) (h : strContains (lowerStr t) "items" = true) :
    (detect_lookup_type t).2.2 ≠ some "total" := by
  rcases detect_cases t with ⟨num, hf, hd⟩ | ⟨hf, em, he, hd⟩ | ⟨hf, he, hd⟩ <;> rw [hd]
  · exact runRules_order_ne_total _ h
  · exact runRules_email_ne_total _ h
  · simp

/-- Witness for `c1_amended` at the claim's own text. -/
theorem c1_witness :
    (detect_lookup_type "What\x27s the total cost of ORD-2024-001 items").2.2 ≠ some "total" :=
  c1_amended "What\x27s the total cost of ORD-2024-001 items" (by rfl)

/-- Claim C8, counterexample: on the text "total status of
bob@example.com" the single fixed priority the claim asserts for both
lookup kinds (total first) would select `total`, but the code's email
path checks status before total and resolves `status` — the rule order is
not the same for both lookup kinds. -/
theorem c8_counterexample :
    detect_lookup_type "total status of bob@example.com"
        = (some "email", some "bob@example.com", some "status") ∧
    claimFieldPriority (lowerStr "total status of bob@example.com") = some "total" ∧
    some "status" ≠ (some "total" : Option String) :=
  ⟨rfl, rfl, by decide⟩

/-- Claim C8, amended: field rules are evaluated first-match-wins on the
lowercased text, but against two different rule lists: the order path uses
total (unless "items"), status, shipping (unless "tracking"), tracking,
items, email, date/when; the email path uses status, total (unless
"items"), items, date/when. -/
theorem c8_amended (t : String) :
    ((detect_lookup_type t).1 = some "order" →
        (detect_lookup_type t).2.2 = runRules orderFieldRules (lowerStr t)) ∧
    ((detect_lookup_type t).1 = some "email" →
        (detect_lookup_type t).2.2 = runRules emailFieldRules (lowerStr t)) := by
  rcases detect_cases t with ⟨num, hf, hd⟩ | ⟨hf, em, he, hd⟩ | ⟨hf, he, hd⟩ <;> rw [hd] <;>
    constructor <;> intro h <;> first | rfl | (exfalso; simp at h)

/-- Claim C4, counterexample: with no direct total key, items
`[{"price": 10, "qty": 2}]` and `shipping_cost: 5`, `extract_field`
does not render `"$25.00"` — it falls back to the full order summary
string. -/
theorem c4_counterexample :
    extract_field [("items", .vList [.vObj [("price", .vInt 10), ("qty", .vInt 2)]]),
        ("shipping_cost", .vInt 5)] "total"
      = .ok (.vStr ("Hello! Your order (unknown order) is (unknown). Items: Item (2 x $10.00). "
          ++ "Total: $25.00. Shipping to: (no shipping address).")) ∧
    ("Hello! Your order (unknown order) is (unknown). Items: Item (2 x $10.00). "
          ++ "Total: $25.00. Shipping to: (no shipping address)") ≠ "$25.00" :=
  ⟨by with_unfolding_all rfl, by decide⟩

/-- Claim C4, amended: when no direct total key resolves, extracting the
total falls back to the full order summary; for the given record that
summary carries the derived "Total: $25.00." sentence, and when the
derived sum is zero/unavailable (the empty record) the summary omits the
Total sentence entirely instead of rendering "(unknown)". -/
theorem c4_amended :
    extract_field [("items", .vList [.vObj [("price", .vInt 10), ("qty", .vInt 2)]]),
        ("shipping_cost", .vInt 5)] "total"
      = .ok (.vStr ("Hello! Your order (unknown order) is (unknown). Items: Item (2 x $10.00). "
          ++ "Total: $25.00. Shipping to: (no shipping address).")) ∧
    strContains ("Hello! Your order (unknown order) is (unknown). Items: Item (2 x $10.00). "
          ++ "Total: $25.00. Shipping to: (no shipping address).") "Total: $25.00." = true ∧
    extract_field [] "total"
      = .ok (.vStr
          "Hello! Your order (unknown order) is (unknown). Items: (no items). Shipping to: (no shipping address).") ∧
    strContains
        "Hello! Your order (unknown order) is (unknown). Items: (no items). Shipping to: (no shipping address)."
        "Total:" = false :=
  ⟨by with_unfolding_all rfl, by decide, by with_unfolding_all rfl, by decide⟩

/-- Claim C5, counterexample: the extractor can raise.  On the record
`{"items": [{"qty": "two"}]}` the items field hits `int("two")` inside
`format_items`, which raises `ValueError` (modelled as `.error`). -/
theorem c5_counterexample :
    extract_field [("items", .vList [.vObj [("qty", .vStr "two")]])] "items" = .error () :=
  rfl

set_option maxHeartbeats 1600000 in
/-- Claim C5, amended: for every order record that is well-typed in the
sense of `WellTyped` — its resolved line items format (each item a dict
with an int-convertible quantity), any structured shipping address under
either key chain composes out of string components, and a truthy resolved
date value is a string — and every logical field name, the extractor
returns a display string and never raises. -/
theorem c5_amended (order : Obj) (hw : WellTyped order) (field : String) :
    ∃ s, extract_field order field = .ok (.vStr s) := by
  obtain ⟨h1, h2, h3, h4⟩ := hw
  obtain ⟨ssum, hssum⟩ := build_order_summary_ok order h1 h2
  unfold extract_field extractByKey
  by_cases hb1 : lowerStr field = "status" ∨ lowerStr field = "order status"
  · rw [if_pos hb1]; exact ⟨_, rfl⟩
  rw [if_neg hb1]
  by_cases hb2 : lowerStr field = "total" ∨ lowerStr field = "total cost" ∨
      lowerStr field = "total amount" ∨ lowerStr field = "total price"
  · rw [if_pos hb2]
    split
    · rw [hssum]; exact ⟨_, rfl⟩
    · split
      · exact ⟨_, rfl⟩
      · split <;> exact ⟨_, rfl⟩
  rw [if_neg hb2]
  by_cases hb3 : lowerStr field = "shipping address" ∨ lowerStr field = "shipping" ∨
      lowerStr field = "address"
  · rw [if_pos hb3]
    cases hsa : getFirst order ["shipping.address", "shipping_address", "address"] with
    | vObj kvs =>
        rw [hsa] at h3
        obtain ⟨s, hs⟩ := h3
        simp [hs]
    | vNull => exact ⟨_, rfl⟩
    | vBool b => exact ⟨_, rfl⟩
    | vInt n => exact ⟨_, rfl⟩
    | vFloat q => exact ⟨_, rfl⟩
    | vStr s => exact ⟨_, rfl⟩
    | vList xs => exact ⟨_, rfl⟩
  rw [if_neg hb3]
  by_cases hb4 : lowerStr field = "tracking" ∨ lowerStr field = "tracking number"
  · rw [if_pos hb4]; exact ⟨_, rfl⟩
  rw [if_neg hb4]
  by_cases hb5 : lowerStr field = "items" ∨ lowerStr field = "order items"
  · rw [if_pos hb5]
    cases hit : orV (getFirst order ["items", "line_items", "order_items"]) (.vList []) with
    | vList xs =>
        rw [hit] at h1
        obtain ⟨s, hs⟩ := h1
        simp [hs]
    | vNull => exact ⟨_, rfl⟩
    | vBool b => exact ⟨_, rfl⟩
    | vInt n => exact ⟨_, rfl⟩
    | vFloat q => exact ⟨_, rfl⟩
    | vStr s => exact ⟨_, rfl⟩
    | vObj kvs => exact ⟨_, rfl⟩
  rw [if_neg hb5]
  by_cases hb6 : lowerStr field = "customer" ∨ lowerStr field = "customer name" ∨
      lowerStr field = "name"
  · rw [if_pos hb6]; exact ⟨_, rfl⟩
  rw [if_neg hb6]
  by_cases hb7 : lowerStr field = "email" ∨ lowerStr field = "customer email"
  · rw [if_pos hb7]; exact ⟨_, rfl⟩
  rw [if_neg hb7]
  by_cases hb8 : lowerStr field = "notes" ∨ lowerStr field = "note"
  · rw [if_pos hb8]; exact ⟨_, rfl⟩
  rw [if_neg hb8]
  by_cases hb9 : lowerStr field = "date" ∨ lowerStr field = "order date"
  · rw [if_pos hb9]
    by_cases hdt : truthy (getFirst order ["order_date", "created_at", "date"]) = true
    · rw [if_pos hdt]
      obtain ⟨ds, hds⟩ := h4 hdt
      rw [hds] at hdt ⊢
      obtain ⟨t, ht⟩ := fmtDate_str ds hdt
      rw [ht]
      exact ⟨_, rfl⟩
    · rw [if_neg hdt]
      exact ⟨_, rfl⟩
  rw [if_neg hb9]
  rw [hssum]; exact ⟨_, rfl⟩

/-- Witness for `c5_amended` at a concrete well-typed record. -/
theorem c5_witness :
    ∃ s, extract_field [("status", .vStr "shipped")] "status" = .ok (.vStr s) :=
  c5_amended [("status", .vStr "shipped")]
    ⟨⟨"(no items)", rfl⟩, trivial, trivial, fun h => absurd h (by decide)⟩ "status"

/-- Claim C2, counterexample: a non-200 HTTP status is NOT treated as an
attempt-level failure.  With a single endpoint answering 503 with the
parseable body `{"detail": "database unavailable"}`, `call_mcp` returns
that body immediately as the call's result and records no per-endpoint
error string. -/
theorem c2_counterexample :
    (call_mcp ["http://localhost:5001"] (fun _ => 0)
        (fun _ => .response 503 (some (.vObj [("detail", .vStr "database unavailable")])))).result
      = .vObj [("detail", .vStr "database unavailable")] ∧
    (call_mcp ["http://localhost:5001"] (fun _ => 0)
        (fun _ => .response 503 (some (.vObj [("detail", .vStr "database unavailable")])))).errors
      = [] ∧
    (503 : Nat) ≠ 200 :=
  ⟨rfl, rfl, by decide⟩

/-- Claim C2, amended: only an unparseable body or a transport exception
is an attempt-level failure (recording a per-endpoint error string and
continuing the loop); ANY response whose body parses as JSON — whatever
its HTTP status — is returned immediately as the call's result.  Either
some final attempt parsed and its body is the result, with one error
string per preceding failed attempt, or every attempt failed to parse and
the synthetic `mcp_unavailable` result aggregating all the error strings
is returned. -/
theorem c2_amended (retries : Nat) (eps : List String) (sel : Nat → Nat)
    (orc : String → Outcome) :
    (∃ pre last, (call_mcp_with retries eps sel orc).attempted = pre ++ [last] ∧
        (∀ e ∈ pre, isParse (orc e) = false) ∧ isParse (orc last) = true ∧
        (call_mcp_with retries eps sel orc).result = bodyOf (orc last) ∧
        (call_mcp_with retries eps sel orc).errors
          = pre.map (fun e => errStringOf e (orc e))) ∨
    ((∀ e ∈ (call_mcp_with retries eps sel orc).attempted, isParse (orc e) = false) ∧
        (call_mcp_with retries eps sel orc).errors
          = (call_mcp_with retries eps sel orc).attempted.map (fun e => errStringOf e (orc e)) ∧
        (call_mcp_with retries eps sel orc).result
          = mcpUnavailable ((call_mcp_with retries eps sel orc).errors)) := by
  obtain ⟨new, hatt, hnd, hmem, hlen, hdisj⟩ := callMcpGo_spec eps sel orc retries 0 [] []
  simp only [List.nil_append] at hatt hdisj
  unfold call_mcp_with
  rcases hdisj with ⟨pre, last, hsplit, hpf, hpl, hres, herr⟩ | ⟨hfail, herr, hres, _⟩
  · exact Or.inl ⟨pre, last, by rw [hatt, hsplit], hpf, hpl, hres, herr⟩
  · refine Or.inr ⟨?_, ?_, ?_⟩
    · intro e he
      rw [hatt] at he
      exact hfail e he
    · rw [herr, hatt]
    · rw [hres, herr]

/-- Claim C6, confirmed: one dispatch attempts at most `retries` distinct
endpoints (`RETRY_ATTEMPTS = 2` by default), never the same endpoint
twice, every attempted endpoint belongs to the registry, and when no
response parses and there are no more distinct endpoints than the budget,
the loop stops only after exhausting all of them. -/
theorem c6_dispatch_bounds (retries : Nat) (eps : List String) (sel : Nat → Nat)
    (orc : String → Outcome) :
    (call_mcp_with retries eps sel orc).attempted.Nodup ∧
    (call_mcp_with retries eps sel orc).attempted.length ≤ retries ∧
    (∀ e ∈ (call_mcp_with retries eps sel orc).attempted, e ∈ eps) ∧
    RETRY_ATTEMPTS = 2 ∧
    ((∀ e, isParse (orc e) = false) → eps.dedup.length ≤ retries →
      ∀ e ∈ eps, e ∈ (call_mcp_with retries eps sel orc).attempted) := by
  obtain ⟨new, hatt, hnd, hmem, hlen, hdisj⟩ := callMcpGo_spec eps sel orc retries 0 [] []
  simp only [List.nil_append] at hatt hdisj
  unfold call_mcp_with
  rw [hatt]
  refine ⟨hnd, hlen, fun e he => (hmem e he).1, rfl, ?_⟩
  intro hall hcard e he
  rcases hdisj with ⟨pre, last, _, _, hpl, _, _⟩ | ⟨_, _, _, hstop⟩
  · rw [hall last] at hpl
    cases hpl
  · rcases hstop with hlen2 | hcov
    · have hsub : new.toFinset ⊆ eps.toFinset := by
        intro x hx
        rw [List.mem_toFinset] at hx ⊢
        exact (hmem x hx).1
      have hcardle : eps.toFinset.card ≤ new.toFinset.card := by
        calc eps.toFinset.card = eps.dedup.length := List.card_toFinset eps
          _ ≤ retries := hcard
          _ ≤ new.length := hlen2
          _ = new.toFinset.card := (List.toFinset_card_of_nodup hnd).symm
      have hseteq := Finset.eq_of_subset_of_card_le hsub hcardle
      have : e ∈ new.toFinset := by
        rw [hseteq]
        exact List.mem_toFinset.mpr he
      exact List.mem_toFinset.mp this
    · simpa using hcov e he

/-- Everything in an updated cache was already there, or is the newly
written value. -/
theorem cacheInsert_mem : ∀ (cache : Cache) (k v : Value),
    ∀ kv ∈ cacheInsert cache k v, kv ∈ cache ∨ kv.2 = v
  | [], k, v, kv, hkv => by
      simp only [cacheInsert, List.mem_singleton] at hkv
      subst hkv
      exact Or.inr rfl
  | (k2, w) :: rest, k, v, kv, hkv => by
      unfold cacheInsert at hkv
      by_cases hq : valEq k2 k = true
      · rw [if_pos hq] at hkv
        rcases List.mem_cons.mp hkv with rfl | h2
        · exact Or.inr rfl
        · exact Or.inl (List.mem_cons_of_mem _ h2)
      · rw [if_neg hq] at hkv
        rcases List.mem_cons.mp hkv with rfl | h2
        · exact Or.inl (List.mem_cons_self _ _)
        · rcases cacheInsert_mem rest k v kv h2 with h3 | h3
          · exact Or.inl (List.mem_cons_of_mem _ h3)
          · exact Or.inr h3

/-- Writing a non-error value preserves the cache invariant. -/
theorem cacheInsert_inv (cache : Cache) (k v : Value) (hinv : CacheInv cache)
    (hv : hasKeyB v "error" = false) : CacheInv (cacheInsert cache k v) := by
  intro kv hkv
  rcases cacheInsert_mem cache k v kv hkv with h | h
  · exact hinv kv h
  · rw [h]
    exact hv

/-- One iteration of the email caching loop preserves the invariant when
the record has no `"error"` key. -/
theorem cacheOne_inv (cache : Cache) (o : Value) (hinv : CacheInv cache)
    (ho : hasKeyB o "error" = false) : CacheInv (cacheOne cache o) := by
  cases o with
  | vObj kvs =>
      simp only [cacheOne]
      by_cases ht : truthy (getFirst kvs ["order_number", "order_id", "id"]) = true
      · rw [if_pos ht]
        exact cacheInsert_inv cache _ _ hinv ho
      · rw [if_neg ht]
        exact hinv
  | vNull => exact hinv
  | vBool b => exact hinv
  | vInt n => exact hinv
  | vFloat q => exact hinv
  | vStr s => exact hinv
  | vList xs => exact hinv

/-- The email caching loop preserves the invariant when every record in
the batch has no `"error"` key. -/
theorem cacheOrders_inv : ∀ (os : List Value) (cache : Cache),
    CacheInv cache → (∀ o ∈ os, hasKeyB o "error" = false) →
    CacheInv (cacheOrders cache os)
  | [], _, hinv, _ => hinv
  | o :: rest, cache, hinv, hos =>
      cacheOrders_inv rest (cacheOne cache o)
        (cacheOne_inv cache o hinv (hos o (List.mem_cons_self _ _)))
        (fun o2 ho2 => hos o2 (List.mem_cons_of_mem _ ho2))

/-- Every record served inside a history response of the backend lacks
the `"error"` key: the server projects exactly the four fields
order_number, status, total_amount, order_date. -/
theorem histRecord_no_error (a b c d : Value) : hasKeyB (histRecord a b c d) "error" = false :=
  rfl

/-- Claim C3, counterexample: the session cache can come to hold a
backend error body.  When the database is down the server answers 503
with body `{"detail": "database unavailable"}`; the dispatcher ignores
the status and returns the parsed body, the order path sees a dict
without an `"error"` key, and caches it under the order number. -/
theorem c3_counterexample :
    runTurn [] "ORD-2024-001" (.vObj [("detail", .vStr "database unavailable")]) .plain
      = ([(.vStr "ORD-2024-001", .vObj [("detail", .vStr "database unavailable")])], 1) ∧
    BackendResp "get_order_status" (.vObj [("detail", .vStr "database unavailable")]) ∧
    (call_mcp ["http://localhost:5001"] (fun _ => 0)
        (fun _ => .response 503 (some (.vObj [("detail", .vStr "database unavailable")])))).result
      = .vObj [("detail", .vStr "database unavailable")] :=
  ⟨rfl, .dbUnavailable _, rfl⟩

/-- Claim C3, amended: over every user turn, no cached value bears the
`"error"` discriminant — neither the dispatcher's synthetic failure nor a
backend `{"error": ...}` body is ever stored (both lookup paths check
`"error" in result` before caching, and history records carry only the
four projected fields).  An HTTP-error body without an `"error"` key can
still be cached (see the counterexample). -/
theorem c3_amended (cache : Cache) (u : String) (mcp : Value) (llm : LlmAct)
    (hinv : CacheInv cache)
    (hm : (∃ errs, mcp = mcpUnavailable errs) ∨ BackendResp (turnTool u llm) mcp) :
    CacheInv (runTurn cache u mcp llm).1 := by
  unfold runTurn
  unfold turnTool at hm
  by_cases ho : (detect_lookup_type u).1 = some "order"
  · rw [if_pos ho]
    split
    · split
      · exact hinv
      · split
        · split
          · exact hinv
          · next kvs hne =>
              exact cacheInsert_inv cache _ _ hinv (by simpa [hasKeyB] using hne)
        · exact hinv
    · exact hinv
  · rw [if_neg ho]
    rw [if_neg ho] at hm
    by_cases he : (detect_lookup_type u).1 = some "email"
    · rw [if_pos he]
      rw [if_pos he] at hm
      revert hm
      split
      · next kvs =>
          split
          · intro _
            exact hinv
          · next hne =>
              intro hm
              refine cacheOrders_inv _ _ hinv ?_
              intro o hoo
              rcases hm with ⟨errs, heq⟩ | hb
              · exfalso
                simp only [mcpUnavailable] at heq
                rw [Value.vObj.injEq] at heq
                subst heq
                simp [objLookup] at hne
              · generalize htl : ("get_order_history_by_email" : String) = tool at hb
                cases hb with
                | dbUnavailable tool2 => simp [ordersOf, objLookup] at hoo
                | badRequest tool2 msg => simp [ordersOf, objLookup] at hoo
                | historyOk email recs =>
                    simp only [ordersOf, objLookup] at hoo
                    simp at hoo
                    obtain ⟨r1, r2, r3, r4, hmem2, rfl⟩ := hoo
                    exact histRecord_no_error _ _ _ _
                | statusNotFound num => exact absurd htl (by decide)
                | statusOk doc => exact absurd htl (by decide)
      · intro _
        exact hinv
    · rw [if_neg he]
      split
      · split
        · exact hinv
        · split
          · exact hinv
          · split
            · split
              · exact hinv
              · next kvs hne =>
                  exact cacheInsert_inv cache _ _ hinv (by simpa [hasKeyB] using hne)
            · exact hinv
      · exact hinv
      · exact hinv

/-- Witness for `c3_amended`: a turn that receives the backend's
`not_found` error body leaves the empty cache empty. -/
theorem c3_witness :
    CacheInv (runTurn [] "status of ORD-2024-001"
      (.vObj [("error", .vStr "not_found"), ("order_number", .vStr "ORD-2024-001")]) .plain).1 :=
  c3_amended [] "status of ORD-2024-001"
    (.vObj [("error", .vStr "not_found"), ("order_number", .vStr "ORD-2024-001")]) .plain
    (fun kv hkv => absurd hkv (List.not_mem_nil kv))
    (Or.inr (.statusNotFound "ORD-2024-001"))

/-- Claim C9, confirmed: when the asked-for order is already cached, the
turn issues no network call and leaves the session cache — in particular
the cached record itself — completely unchanged, so repeating the same
turn produces the identical effect and the identical rendered output
(`orderTurnView` reads the same record through `orderPathOut` and
`extract_field` both times). -/
theorem c9_repeat_turn (cache : Cache) (u : String) (num : String) (f : Option String)
    (rec : Value)
    (hd : detect_lookup_type u = (some "order", some num, f))
    (hc : cacheLookup cache (.vStr num) = some rec) :
    ∀ mcp llm mcp2 llm2,
      runTurn cache u mcp llm = (cache, 0) ∧
      cacheLookup (runTurn cache u mcp llm).1 (.vStr num) = some rec ∧
      runTurn ((runTurn cache u mcp llm).1) u mcp2 llm2 = runTurn cache u mcp llm ∧
      orderTurnView ((runTurn cache u mcp llm).1) u = orderTurnView cache u := by
  intro mcp llm mcp2 llm2
  have h1 : ∀ m l, runTurn cache u m l = (cache, 0) := by
    intro m l
    unfold runTurn
    simp [hd, hc]
  refine ⟨h1 mcp llm, ?_, ?_, ?_⟩
  · rw [h1 mcp llm]
    exact hc
  · rw [h1 mcp llm]
    exact h1 mcp2 llm2
  · rw [h1 mcp llm]

/-- Witness for `c9_repeat_turn` at a concrete cached order. -/
theorem c9_witness :
    runTurn [(.vStr "ORD-2024-001", .vObj [("status", .vStr "shipped")])]
        "status of ORD-2024-001" (.vObj []) .plain
      = ([(.vStr "ORD-2024-001", .vObj [("status", .vStr "shipped")])], 0) :=
  (c9_repeat_turn [(.vStr "ORD-2024-001", .vObj [("status", .vStr "shipped")])]
    "status of ORD-2024-001" "ORD-2024-001" (some "status")
    (.vObj [("status", .vStr "shipped")]) rfl rfl (.vObj []) .plain (.vObj []) .plain).1

/-- Claim C10, confirmed: whenever the order pattern matches anywhere in
the uppercased input, the resolver detects an order lookup whose value is
fixed under uppercasing (the fully uppercased token); concretely, the
turn "ord-2024-001" caches the record under the key "ORD-2024-001", and a
follow-up turn naming "ORD-2024-001" is served from the cache with zero
network calls. -/
theorem c10_uppercase_token :
    (∀ (t : String) (i : Nat), (matchOrderAt ((upperStr t).data.drop i)).isSome = true →
      ∃ num f, detect_lookup_type t = (some "order", some num, f) ∧ upperStr num = num) ∧
    runTurn [] "ord-2024-001" (.vObj [("status", .vStr "shipped")]) .plain
      = ([(.vStr "ORD-2024-001", .vObj [("status", .vStr "shipped")])], 1) ∧
    runTurn [(.vStr "ORD-2024-001", .vObj [("status", .vStr "shipped")])]
        "what is the status of ORD-2024-001" (.vObj []) .plain
      = ([(.vStr "ORD-2024-001", .vObj [("status", .vStr "shipped")])], 0) := by
  refine ⟨?_, rfl, rfl⟩
  intro t i hm
  have hsome := findOrderTokenAux_isSome (upperStr t).data i hm
  rcases detect_cases t with ⟨num, hf, hd⟩ | ⟨hf, _⟩ | ⟨hf, _, _⟩
  · refine ⟨num, _, hd, ?_⟩
    unfold findOrderToken at hf
    cases htok : findOrderTokenAux (upperStr t).data with
    | none => rw [htok] at hf; cases hf
    | some tok =>
        rw [htok] at hf
        simp only [Option.map_some'] at hf
        injection hf with hf
        subst hf
        have hfix := findOrderTokenAux_fixed _ _ htok
        show upperStr ⟨tok⟩ = ⟨tok⟩
        unfold upperStr
        rw [show (String.mk tok).data = tok from rfl, hfix]
  · unfold findOrderToken at hf
    rw [Option.map_eq_none'] at hf
    rw [hf] at hsome
    cases hsome
  · unfold findOrderToken at hf
    rw [Option.map_eq_none'] at hf
    rw [hf] at hsome
    cases hsome

/-- Claim C7, confirmed: after an email turn whose history fetch succeeds
(no "error" key) and returns records that each carry a resolvable
identifier, with the identifiers pairwise distinct, the turn makes
exactly one call, every record is afterwards cached under its own
identifier, and a subsequent order turn naming any of those identifiers
is answered from the cache with zero calls. -/
theorem c7_history_cache (cache : Cache) (u : String) (em : String) (f : Option String)
    (kvs : Obj) (os : List Value) (llm : LlmAct)
    (hd : detect_lookup_type u = (some "email", some em, f))
    (hne : (objLookup kvs "error").isSome = false)
    (hos : objLookup kvs "orders" = some (.vList os))
    (hids : ∀ o ∈ os, (recId o).isSome = true)
    (hnodup : (os.map recId).Nodup) :
    (runTurn cache u (.vObj kvs) llm).2 = 1 ∧
    (∀ o ∈ os, ∀ k, recId o = some k →
        cacheLookup (runTurn cache u (.vObj kvs) llm).1 k = some o) ∧
    (∀ (u2 num2 : String) (f2 : Option String) (mcp2 : Value) (llm2 : LlmAct)
        (o : Value), o ∈ os →
      detect_lookup_type u2 = (some "order", some num2, f2) →
      recId o = some (.vStr num2) →
      runTurn ((runTurn cache u (.vObj kvs) llm).1) u2 mcp2 llm2
        = ((runTurn cache u (.vObj kvs) llm).1, 0)) := by
  have hrun : runTurn cache u (.vObj kvs) llm = (cacheOrders cache os, 1) := by
    unfold runTurn
    simp [hd, hne, ordersOf, hos]
  have hlook : ∀ o ∈ os, ∀ k, recId o = some k →
      cacheLookup (runTurn cache u (.vObj kvs) llm).1 k = some o := by
    intro o hmem k hk
    rw [hrun]
    exact cacheOrders_lookup os cache o k hmem hk hnodup
  refine ⟨by rw [hrun], hlook, ?_⟩
  intro u2 num2 f2 mcp2 llm2 o hmem hd2 hk
  have hhit : (cacheLookup ((runTurn cache u (.vObj kvs) llm).1) (.vStr num2)).isSome
      = true := by
    rw [hlook o hmem (.vStr num2) hk]
    rfl
  rw [hrun] at hhit ⊢
  unfold runTurn
  simp [hd2, hhit]

/-- Witness for `c7_history_cache`: a two-record history for
"bob@example.com" is cached under "ORD-2024-001" and "ORD-2024-002" in
one call, and a follow-up status question about "ORD-2024-001" makes
zero calls. -/
theorem c7_witness :
    (runTurn [] "orders for bob@example.com"
        (.vObj [("orders", .vList
          [.vObj [("order_number", .vStr "ORD-2024-001"), ("status", .vStr "shipped")],
           .vObj [("order_number", .vStr "ORD-2024-002"), ("status", .vStr "pending")]])])
        .plain).2 = 1 ∧
    cacheLookup (runTurn [] "orders for bob@example.com"
        (.vObj [("orders", .vList
          [.vObj [("order_number", .vStr "ORD-2024-001"), ("status", .vStr "shipped")],
           .vObj [("order_number", .vStr "ORD-2024-002"), ("status", .vStr "pending")]])])
        .plain).1 (.vStr "ORD-2024-001")
      = some (.vObj [("order_number", .vStr "ORD-2024-001"), ("status", .vStr "shipped")]) ∧
    runTurn ((runTurn [] "orders for bob@example.com"
        (.vObj [("orders", .vList
          [.vObj [("order_number", .vStr "ORD-2024-001"), ("status", .vStr "shipped")],
           .vObj [("order_number", .vStr "ORD-2024-002"), ("status", .vStr "pending")]])])
        .plain).1) "status of ORD-2024-001" (.vObj []) .plain
      = ((runTurn [] "orders for bob@example.com"
        (.vObj [("orders", .vList
          [.vObj [("order_number", .vStr "ORD-2024-001"), ("status", .vStr "shipped")],
           .vObj [("order_number", .vStr "ORD-2024-002"), ("status", .vStr "pending")]])])
        .plain).1, 0) := by
  have h := c7_history_cache [] "orders for bob@example.com" "bob@example.com" none
    [("orders", .vList
      [.vObj [("order_number", .vStr "ORD-2024-001"), ("status", .vStr "shipped")],
       .vObj [("order_number", .vStr "ORD-2024-002"), ("status", .vStr "pending")]])]
    [.vObj [("order_number", .vStr "ORD-2024-001"), ("status", .vStr "shipped")],
     .vObj [("order_number", .vStr "ORD-2024-002"), ("status", .vStr "pending")]]
    .plain rfl rfl rfl (by intro o ho; fin_cases ho <;> rfl) (by decide)
  refine ⟨h.1, ?_, ?_⟩
  · exact h.2.1 (.vObj [("order_number", .vStr "ORD-2024-001"), ("status", .vStr "shipped")])
      (by simp) (.vStr "ORD-2024-001") (by decide)
  · exact h.2.2 "status of ORD-2024-001" "ORD-2024-001" (some "status") (.vObj []) .plain
      (.vObj [("order_number", .vStr "ORD-2024-001"), ("status", .vStr "shipped")])
      (by simp) rfl (by decide)

end MCP
